import Mathlib

/-!
Verification development for the loan-dashboard repository.

The definitions below are a shallow embedding of the JavaScript source:
`src/js/loanEngine.js` (amortization engine), `src/js/ownershipEngine.js`
(ownership normalization), `src/unnamed/part_010` (earnings engine) and
`src/js/roiEngine.js` (ROI engine).  Currency values are modelled as exact
rationals (`ℚ`); JavaScript `Number.toFixed(2)` at row creation is modelled
by `round2`.  Calendar dates are modelled at day precision by `PDate`
(month number and day of month); every place where the source canonicalizes
a date to the first of its month is modelled by taking the month number
alone.  A JavaScript `Date` that fails to parse is modelled by `Option`
being `none`.
-/

namespace LoanDash

/-- `(+x.toFixed(2))`: rounding a currency amount to two decimals. -/
def round2 (x : ℚ) : ℚ := (round (100 * x) : ℤ) / 100

theorem round2_zero : round2 0 = 0 := by
  simp [round2]

theorem round2_nonneg {x : ℚ} (hx : 0 ≤ x) : 0 ≤ round2 x := by
  unfold round2
  have h1 : (0 : ℚ) ≤ 100 * x := by positivity
  have h2 : (0 : ℤ) ≤ round (100 * x) := by
    rw [round_eq, Int.floor_nonneg]
    linarith
  positivity

theorem round2_idem (x : ℚ) : round2 (round2 x) = round2 x := by
  unfold round2
  have : (100 : ℚ) * ((round (100 * x) : ℤ) / 100) = ((round (100 * x) : ℤ) : ℚ) := by
    ring
  rw [this, round_intCast]

/-- Calendar date at day precision: `month` is an absolute month number
(`year*12 + monthOfYear`), `day` the day of month. -/
structure PDate where
  month : ℤ
  day : ℤ
deriving DecidableEq, Repr

/-- JavaScript `d1 <= d2` on dates, at (month, day) precision. -/
def PDate.le (a b : PDate) : Bool :=
  a.month < b.month || (a.month = b.month && a.day ≤ b.day)

/-- JavaScript `d1 < d2` on dates, at (month, day) precision. -/
def PDate.lt (a b : PDate) : Bool :=
  a.month < b.month || (a.month = b.month && a.day < b.day)

/-- `prepayment{date, amount}` events, keyed by calendar month of `date`. -/
structure PrepayEvent where
  month : ℤ
  amount : ℚ
deriving DecidableEq, Repr

/-- `deferral{startDate, months}` events, keyed by calendar month of `startDate`. -/
structure DeferralEvent where
  startMonth : ℤ
  months : ℚ
deriving DecidableEq, Repr

/-- `default{date, recoveryAmount}` events, keyed by calendar month of `date`. -/
structure DefaultEvent where
  month : ℤ
  recoveryAmount : ℚ
deriving DecidableEq, Repr

/-- The three tagged event variants recognized by the engine. -/
inductive Event where
  | prepayment : PrepayEvent → Event
  | deferral : DeferralEvent → Event
  | defaultEv : DefaultEvent → Event
deriving DecidableEq, Repr

/-- Canonical loan record as consumed by `buildAmortSchedule`.
`loanStartDate`/`purchaseDate` are `none` when the raw date string does not
parse (JavaScript `Invalid Date`).  `ownershipPct` is carried on the record
(the load layer supplies it) — the amortization and ROI engines never read
it. -/
structure Loan where
  principal : ℚ
  purchasePrice : ℚ
  nominalRate : ℚ
  termYears : ℕ
  graceYears : ℕ
  loanStartDate : Option PDate
  purchaseDate : Option PDate
  ownershipPct : ℚ
  events : List Event
deriving DecidableEq, Repr

/-- One amortization schedule row, with the fields `buildAmortSchedule`
pushes.  A field the source leaves `undefined` on some row kind is modelled
by its JavaScript truthiness under the reads the code performs:
`isDeferred` is `false` where the push omits it (the default row), and
`isTerminal` is `false` on every row (the engine never sets it; consumers
test `r.isTerminal === true`). -/
structure Row where
  monthIndex : ℕ
  loanDate : ℤ
  payment : ℚ
  principalPaid : ℚ
  interest : ℚ
  balance : ℚ
  prepayment : ℚ
  accruedInterest : ℚ
  isDeferred : Bool
  deferralIndex : Option ℕ
  deferralRemaining : Option ℕ
  isOwned : Bool
  defaulted : Bool
  recovery : ℚ
  isTerminal : Bool
  contractualMonth : ℕ
deriving DecidableEq, Repr

/-- `prepayMap[monthKey(d)]`: the amounts of prepayment events falling in
calendar month `m`, in event-list order. -/
def prepaysAt (events : List Event) (m : ℤ) : List ℚ :=
  events.filterMap fun e =>
    match e with
    | .prepayment p => if p.month = m then some p.amount else none
    | _ => none

/-- `deferralStartMap[monthKey(d)]`: total requested deferral months of the
deferral events starting in calendar month `m` (`Number(e.months) > 0`
filter, `Math.max(0, Math.floor(...))`, summed per month). -/
def deferralStartTotal (events : List Event) (m : ℤ) : ℕ :=
  (events.filterMap fun e =>
    match e with
    | .deferral d =>
        if d.startMonth = m ∧ 0 < d.months then some (max 0 ⌊d.months⌋).toNat else none
    | _ => none).sum

/-- `events.find(e => e.type === "default" && e.date)`: the first default event. -/
def firstDefault (events : List Event) : Option DefaultEvent :=
  events.findSome? fun e =>
    match e with
    | .defaultEv d => some d
    | _ => none

/-- Static per-loan context of the schedule walk. -/
structure Ctx where
  monthlyRate : ℚ
  graceMonths : ℤ
  repaymentMonths : ℤ
  totalMonths : ℕ
  startMonth : ℤ
  purchaseMonth : Option ℤ
  prepays : ℤ → List ℚ
  deferralStart : ℤ → ℕ
  defaultMonth : Option ℤ
  defaultRecovery : ℚ

/-- `loanDate >= purchaseMonth` with `purchaseMonth` the first of the
purchase month; comparisons against an `Invalid Date` are false. -/
def isOwnedAt (ctx : Ctx) (m : ℤ) : Bool :=
  match ctx.purchaseMonth with
  | none => false
  | some p => p ≤ m

/-- The prepayment `forEach`: each positive amount is applied capped at the
current balance.  Returns the new balance and the total applied. -/
def applyPrepays (balance : ℚ) (amts : List ℚ) : ℚ × ℚ :=
  amts.foldl
    (fun acc amt =>
      if amt ≤ 0 then acc
      else (acc.1 - min acc.1 amt, acc.2 + min acc.1 amt))
    (balance, 0)

/-- The dynamic payment of a repayment-phase month: the standard annuity
formula on the current balance and the remaining payment months,
degenerating to linear division when the monthly rate is zero. -/
def dynPayment (P r : ℚ) (n : ℤ) : ℚ :=
  if r = 0 then P / (n : ℚ) else (P * r) / (1 - (1 + r) ^ (-n))

/-- `Math.max(1, paymentMonthsTotal - paymentMonthNumber)`. -/
def remainingOf (ctx : Ctx) (monthsSince : ℤ) : ℤ :=
  max 1 (ctx.repaymentMonths - (monthsSince - ctx.graceMonths))

/-- Mutable state of the schedule walk. -/
structure LoopState where
  i : ℕ
  calMonth : ℤ
  balance : ℚ
  deferralRemaining : ℕ
  deferralTotal : ℕ
  count : ℕ
deriving DecidableEq, Repr

/-- The terminal row pushed when the calendar month matches the default month. -/
def defaultRowOf (ctx : Ctx) (st : LoopState) : Row :=
  let applied := min st.balance ctx.defaultRecovery
  { monthIndex := st.count + 1
    loanDate := st.calMonth
    payment := round2 applied
    principalPaid := round2 applied
    interest := 0
    balance := round2 (st.balance - applied)
    prepayment := 0
    accruedInterest := 0
    isDeferred := false
    deferralIndex := none
    deferralRemaining := none
    isOwned := isOwnedAt ctx st.calMonth
    defaulted := true
    recovery := round2 applied
    isTerminal := false
    contractualMonth := st.i + 1 }

/-- A deferral-insertion row: interest accrued and capitalized, only
prepayments count as principal, deferral flags set, `i` not advanced. -/
def deferralRowOf (ctx : Ctx) (st : LoopState) (rem tot : ℕ)
    (accrued prepTotal newBalance : ℚ) : Row :=
  { monthIndex := st.count + 1
    loanDate := st.calMonth
    payment := 0
    principalPaid := round2 prepTotal
    interest := 0
    balance := round2 newBalance
    prepayment := round2 prepTotal
    accruedInterest := round2 accrued
    isDeferred := true
    deferralIndex := some (tot - rem)
    deferralRemaining := some rem
    isOwned := isOwnedAt ctx st.calMonth
    defaulted := false
    recovery := 0
    isTerminal := false
    contractualMonth := st.i + 1 }

/-- A normal contractual-month row (grace or repayment). -/
def normalRowOf (ctx : Ctx) (st : LoopState)
    (pay principalPaid interest newBalance prepTotal : ℚ) : Row :=
  { monthIndex := st.count + 1
    loanDate := st.calMonth
    payment := round2 pay
    principalPaid := round2 principalPaid
    interest := round2 interest
    balance := round2 newBalance
    prepayment := round2 prepTotal
    accruedInterest := 0
    isDeferred := false
    deferralIndex := none
    deferralRemaining := none
    isOwned := isOwnedAt ctx st.calMonth
    defaulted := false
    recovery := 0
    isTerminal := false
    contractualMonth := st.i + 1 }

/-- The contractual-month loop of `buildAmortSchedule` (fuel-indexed; the
fuel passed by `buildAmortScheduleCore` bounds the iteration count, which
is at most `totalMonths` plus the total requested deferral months). -/
def amortLoop (ctx : Ctx) : ℕ → LoopState → List Row
  | 0, _ => []
  | (fuel + 1), st =>
    if st.i < ctx.totalMonths then
      if ctx.defaultMonth = some st.calMonth then
        [defaultRowOf ctx st]
      else
        let ds := ctx.deferralStart st.calMonth
        let rem := if st.deferralRemaining = 0 ∧ ds ≠ 0 then ds else st.deferralRemaining
        let tot := if st.deferralRemaining = 0 ∧ ds ≠ 0 then ds else st.deferralTotal
        if 0 < rem then
          let accrued := st.balance * ctx.monthlyRate
          let pr := applyPrepays (st.balance + accrued) (ctx.prepays st.calMonth)
          deferralRowOf ctx st rem tot accrued pr.2 pr.1 ::
            amortLoop ctx fuel
              { i := st.i
                calMonth := st.calMonth + 1
                balance := pr.1
                deferralRemaining := rem - 1
                deferralTotal := tot
                count := st.count + 1 }
        else
          let interest := st.balance * ctx.monthlyRate
          let ms := st.calMonth - ctx.startMonth
          let pay := if ms < ctx.graceMonths then 0
                     else dynPayment st.balance ctx.monthlyRate (remainingOf ctx ms)
          let pp := if ms < ctx.graceMonths then 0 else max 0 (pay - interest)
          let b1 := if ms < ctx.graceMonths then st.balance + interest
                    else max 0 (st.balance - pp)
          let pr := applyPrepays b1 (ctx.prepays st.calMonth)
          let row := normalRowOf ctx st pay (pp + pr.2) interest pr.1 pr.2
          if pr.1 ≤ 0 then [row]
          else
            row :: amortLoop ctx fuel
              { i := st.i + 1
                calMonth := st.calMonth + 1
                balance := pr.1
                deferralRemaining := rem
                deferralTotal := tot
                count := st.count + 1 }
    else []

/-- The static context built at the top of `buildAmortSchedule`. -/
def mkCtx (loan : Loan) (start : ℤ) : Ctx :=
  { monthlyRate := loan.nominalRate / 12
    graceMonths := (loan.graceYears : ℤ) * 12
    repaymentMonths := (loan.termYears : ℤ) * 12
    totalMonths := loan.graceYears * 12 + loan.termYears * 12
    startMonth := start
    purchaseMonth := loan.purchaseDate.map PDate.month
    prepays := prepaysAt loan.events
    deferralStart := deferralStartTotal loan.events
    defaultMonth := (firstDefault loan.events).map DefaultEvent.month
    defaultRecovery := ((firstDefault loan.events).map DefaultEvent.recoveryAmount).getD 0 }

/-- Total requested deferral months across all deferral events: together
with `totalMonths` this bounds the number of loop iterations. -/
def pendingDeferralMonths (events : List Event) : ℕ :=
  (events.filterMap fun e =>
    match e with
    | .deferral d => if 0 < d.months then some (max 0 ⌊d.months⌋).toNat else none
    | _ => none).sum

/-- Fuel sufficient to run the walk to completion. -/
def amortFuel (loan : Loan) : ℕ :=
  loan.graceYears * 12 + loan.termYears * 12 + pendingDeferralMonths loan.events + 1

/-- The schedule walk after the loan start date has parsed to `start`. -/
def buildAmortScheduleCore (loan : Loan) (start : ℤ) : List Row :=
  amortLoop (mkCtx loan start) (amortFuel loan)
    { i := 0
      calMonth := start
      balance := loan.principal
      deferralRemaining := 0
      deferralTotal := 0
      count := 0 }

/-- `buildAmortSchedule(loan)`: throws (`Except.error`) exactly when
`loanStartDate` does not parse; an unparseable `purchaseDate` is *not*
checked (comparisons against it are false, marking every row unowned). -/
def buildAmortSchedule (loan : Loan) : Except String (List Row) :=
  match loan.loanStartDate with
  | none => .error "Invalid loanStartDate"
  | some s => .ok (buildAmortScheduleCore loan s.month)

/-! ## Ownership engine (`src/js/ownershipEngine.js`, second variant, lines 64-102) -/

/-- The sentinel remainder holder. -/
def MARKET_USER : String := "Market"

/-- One ownership allocation `{ user, percent }`. -/
structure Allocation where
  user : String
  percent : ℚ
deriving DecidableEq, Repr

/-- `loan.ownership`: the allocation list (unit/step fields carry no logic). -/
structure Ownership where
  allocations : List Allocation
deriving DecidableEq, Repr

/-- `normalizeOwnership(loan, user)`: ensure the model exists, optionally
insert the user's allocation, then rebalance the Market remainder.  The
function mutates `loan.ownership` in place; we model it as the new value of
that field, taking the prior `loan.ownership` (or `none`), the `user`
argument (default `null`) and `loan.ownershipPct` (possibly absent). -/
def normalizeOwnership (ow : Option Ownership) (user : Option String)
    (ownershipPct : Option ℚ) : Ownership :=
  let ow0 : Ownership := ow.getD { allocations := [] }
  let ow1 : Ownership :=
    match user with
    | none => ow0
    | some u =>
        if ow0.allocations.any (fun a => a.user = u) then ow0
        else { allocations := ow0.allocations ++ [{ user := u, percent := ownershipPct.getD 100 }] }
  let real := ow1.allocations.filter (fun a => a.user ≠ MARKET_USER)
  let assigned := real.foldl (fun s a => s + a.percent) 0
  ⟨real ++ [⟨MARKET_USER, max 0 (100 - assigned)⟩]⟩

/-! ## Earnings engine (`src/unnamed/part_010`, `buildEarningsSchedule`) -/

/-- One earnings row, with the fields the earnings map produces (input row
fields that are merely spread through unchanged are omitted except those a
claim reads). -/
structure ERow where
  monthIndex : ℕ
  loanDate : ℤ
  ownershipMonthIndex : ℤ
  isOwned : Bool
  cumPrincipal : ℚ
  cumInterest : ℚ
  cumFees : ℚ
  netEarnings : ℚ
  monthlyPrincipal : ℚ
  monthlyInterest : ℚ
  monthlyFees : ℚ
  monthlyNet : ℚ
  feeThisMonth : ℚ
  interestPaid : ℚ
  principalPaid : ℚ
  isDeferralMonth : Bool
deriving DecidableEq, Repr

/-- `ownershipMonthIndex = row.monthIndex - monthsSinceStart`. -/
def omiOf (msStart : ℤ) (r : Row) : ℤ := (r.monthIndex : ℤ) - msStart

/-- The one-time 150 upfront fee on the first owned month. -/
def upfrontFeeOf (msStart : ℤ) (r : Row) : ℚ :=
  if 1 ≤ omiOf msStart r ∧ omiOf msStart r = 1 then 150 else 0

/-- The recurring `balance * 0.00125` fee on owned, non-deferred,
positive-balance months, rounded at creation. -/
def monthlyBalanceFeeOf (msStart : ℤ) (r : Row) : ℚ :=
  if 1 ≤ omiOf msStart r ∧ r.isDeferred = false ∧ 0 < r.balance
  then round2 (r.balance * (125 / 100000)) else 0

/-- `feeThisMonth = upfrontFeeThisMonth + monthlyBalanceFee`. -/
def feeOfMonthOf (msStart : ℤ) (r : Row) : ℚ :=
  upfrontFeeOf msStart r + monthlyBalanceFeeOf msStart r

/-- Principal contributed to earnings this month (owned, non-deferred
months only; prepayments excluded, floored at zero). -/
def principalContrib (msStart : ℤ) (r : Row) : ℚ :=
  if 1 ≤ omiOf msStart r ∧ r.isDeferred = false
  then max 0 (r.principalPaid - r.prepayment) else 0

/-- Interest contributed to earnings this month. -/
def interestContrib (msStart : ℤ) (r : Row) : ℚ :=
  if 1 ≤ omiOf msStart r ∧ r.isDeferred = false then r.interest else 0

/-- Fees contributed to earnings this month. -/
def feeContrib (msStart : ℤ) (r : Row) : ℚ :=
  if 1 ≤ omiOf msStart r ∧ r.isDeferred = false then feeOfMonthOf msStart r else 0

/-- The earnings row built from one amortization row, given the incoming
cumulative principal/interest/fees (the `prev*` trackers of the source
always equal the incoming accumulators). -/
def mkERow (lsMonth msStart : ℤ) (r : Row) (cumP cumI cumF : ℚ) : ERow :=
  let cumP2 := round2 (cumP + principalContrib msStart r)
  let cumI2 := round2 (cumI + interestContrib msStart r)
  let cumF2 := round2 (cumF + feeContrib msStart r)
  { monthIndex := r.monthIndex
    loanDate := lsMonth + ((r.monthIndex : ℤ) - 1)
    ownershipMonthIndex := omiOf msStart r
    isOwned := 1 ≤ omiOf msStart r
    cumPrincipal := cumP2
    cumInterest := cumI2
    cumFees := cumF2
    netEarnings := round2 (cumP2 + cumI2 - cumF2)
    monthlyPrincipal := round2 (cumP2 - cumP)
    monthlyInterest := round2 (cumI2 - cumI)
    monthlyFees := round2 (cumF2 - cumF)
    monthlyNet := round2 (round2 (cumP2 - cumP) + round2 (cumI2 - cumI) - round2 (cumF2 - cumF))
    feeThisMonth := if r.isDeferred then 0 else feeOfMonthOf msStart r
    interestPaid := if r.isDeferred then 0 else r.interest
    principalPaid := if r.isDeferred then 0 else r.principalPaid
    isDeferralMonth := r.isDeferred }

/-- The normalize-plus-accumulate map of `buildEarningsSchedule`, carrying
the three cumulative accumulators. -/
def earningsLoop (lsMonth msStart : ℤ) :
    List Row → ℚ → ℚ → ℚ → List ERow
  | [], _, _, _ => []
  | r :: rs, cumP, cumI, cumF =>
    mkERow lsMonth msStart r cumP cumI cumF ::
      earningsLoop lsMonth msStart rs
        (round2 (cumP + principalContrib msStart r))
        (round2 (cumI + interestContrib msStart r))
        (round2 (cumF + feeContrib msStart r))

/-- Stable insertion of an earnings row after every row whose `loanDate`
is less than or equal (mirrors the final stable `sort` by `loanDate`). -/
def insertByLoanDate (r : ERow) : List ERow → List ERow
  | [] => [r]
  | x :: xs => if x.loanDate ≤ r.loanDate then x :: insertByLoanDate r xs else r :: x :: xs

/-- Stable sort by `loanDate` (left fold of stable insertions). -/
def sortByLoanDate (l : List ERow) : List ERow :=
  l.foldl (fun acc r => insertByLoanDate r acc) []

/-- `buildEarningsSchedule({amortSchedule, loanStartDate, purchaseDate, ...})`.
The empty-schedule guard precedes the date guards; an unparseable
`loanStartDate` or `purchaseDate` is thrown only when the amortization
schedule is non-empty.  (The per-row `loanDate` validity re-check before
the final sort cannot fire: every generated date is finite.) -/
def buildEarningsSchedule (amortSchedule : List Row)
    (loanStartDate purchaseDate : Option PDate) : Except String (List ERow) :=
  if amortSchedule.isEmpty then .ok []
  else
    match loanStartDate with
    | none => .error "Invalid loanStartDate in earnings engine"
    | some ls =>
      match purchaseDate with
      | none => .error "Invalid purchaseDate in earnings engine"
      | some pd =>
          .ok (sortByLoanDate
            (earningsLoop ls.month (pd.month - ls.month) amortSchedule 0 0 0))

/-! ## ROI engine (`src/js/roiEngine.js`) -/

/-- `deriveLoansWithRoi`: keep rows up to and including the first terminal
row (`out.push(r); if (r.isTerminal === true) break`). -/
def takeUntilTerminal : List Row → List Row
  | [] => []
  | r :: rs => if r.isTerminal then [r] else r :: takeUntilTerminal rs

/-- A `cumSchedule` row of `deriveLoansWithRoi`: the amortization row plus
the recomputed ownership flags and running cumulative totals. -/
structure CRow where
  row : Row
  isOwned : Bool
  ownershipMonthIndex : ℤ
  cumPrincipal : ℚ
  cumInterest : ℚ
  cumFees : ℚ
deriving DecidableEq, Repr

/-- Ownership flags attached by `deriveLoansWithRoi`: the raw purchase
date (day precision, *not* month-anchored) is compared against the row's
first-of-month `loanDate`; comparisons against an invalid date are false. -/
def ownedFlag (purchase : Option PDate) (loanDate : ℤ) : Bool :=
  match purchase with
  | none => false
  | some p => PDate.le p ⟨loanDate, 1⟩

/-- `cumSchedule`: owned rows with running (exact) cumulative principal,
interest and fees, each stored rounded to 2 decimals. -/
def cumScheduleOf (purchase : Option PDate) : List Row → ℚ → ℚ → ℚ → List CRow
  | [], _, _, _ => []
  | r :: rs, cumP, cumI, cumF =>
    if ownedFlag purchase r.loanDate then
      let cumP2 := cumP + r.principalPaid
      let cumI2 := cumI + r.interest
      let cumF2 := cumF + 0
      { row := r
        isOwned := true
        ownershipMonthIndex :=
          (match purchase with
           | some p => r.loanDate - p.month + 1
           | none => 0)
        cumPrincipal := round2 cumP2
        cumInterest := round2 cumI2
        cumFees := round2 cumF2 } :: cumScheduleOf purchase rs cumP2 cumI2 cumF2
    else cumScheduleOf purchase rs cumP cumI cumF

/-- One entry of a per-loan `roiSeries`. -/
structure RoiEntry where
  month : ℤ
  date : ℤ
  roi : ℚ
  loanValue : ℚ
  cumFees : ℚ
  realized : ℚ
  remainingBalance : ℚ
  unrealized : ℚ
  isTerminal : Bool
deriving DecidableEq, Repr

/-- The `roiSeries` map of `deriveLoansWithRoi`: for each owned cum-row,
`realized = (cumPrincipal + cumInterest) - cumFees`, `unrealized =
balance * 0.95`, `loanValue = realized + unrealized` and `roi = (loanValue
- purchasePrice) / purchasePrice` (the division is *unguarded* in the
source; a zero purchase price yields a non-finite JavaScript number). -/
def roiSeriesOf (purchasePrice : ℚ) (cums : List CRow) : List RoiEntry :=
  (cums.filter (fun c => c.isOwned)).map fun c =>
    let realized := (c.cumPrincipal + c.cumInterest) - c.cumFees
    let unrealized := c.row.balance * (95 / 100)
    let loanValue := realized + unrealized
    { month := c.ownershipMonthIndex
      date := c.row.loanDate
      roi := (loanValue - purchasePrice) / purchasePrice
      loanValue := loanValue
      cumFees := c.cumFees
      realized := realized
      remainingBalance := c.row.balance
      unrealized := unrealized
      isTerminal := c.row.isTerminal }

/-- The per-loan `cumSchedule` of `deriveLoansWithRoi` (the engine rows
never carry `feeThisMonth`, so the fee accumulator only ever adds 0). -/
def deriveLoanCums (l : Loan) : Except String (List CRow) :=
  (buildAmortSchedule l).map fun raw =>
    cumScheduleOf l.purchaseDate (takeUntilTerminal raw) 0 0 0

/-- The per-loan `roiSeries` of `deriveLoansWithRoi`. -/
def deriveLoanRoi (l : Loan) : Except String (List RoiEntry) :=
  (deriveLoanCums l).map fun cums => roiSeriesOf l.purchasePrice cums

/-! ### `buildProjectedRoiTimeline` -/

/-- A `cumSchedule` row as consumed by `buildProjectedRoiTimeline`
(`loanDate` is a first-of-month date, so only its month matters for the
`YYYY-MM` keying). -/
structure CumRow where
  isOwned : Bool
  loanDate : ℤ
  cumPrincipal : ℚ
  cumInterest : ℚ
  cumFees : ℚ
  balance : ℚ
deriving DecidableEq, Repr

/-- A loan as read by `buildProjectedRoiTimeline`: purchase date (day
precision), purchase price, term/grace years and the attached
`cumSchedule`.  `ownershipPct` is carried on the record; the function
never reads it. -/
structure RLoan where
  purchaseDate : PDate
  purchasePrice : ℚ
  termYears : ℚ
  graceYears : ℚ
  ownershipPct : ℚ
  cumSchedule : List CumRow
deriving DecidableEq, Repr

/-- The `roiMap` observations of one loan: `(month, roi)` for each owned
cum-row, in row order (later rows overwrite earlier ones at the same
month key). -/
def roiObsOf (l : RLoan) : List (ℤ × ℚ) :=
  l.cumSchedule.filterMap fun row =>
    if row.isOwned then
      let realized := (row.cumPrincipal + row.cumInterest) - row.cumFees
      let unrealized := row.balance * (95 / 100)
      let loanValue := realized + unrealized
      some (row.loanDate,
        if l.purchasePrice = 0 then 0
        else (loanValue - l.purchasePrice) / l.purchasePrice)
    else none

/-- `roiMap[key]` lookup: the last write wins. -/
def roiLookup (obs : List (ℤ × ℚ)) (m : ℤ) : Option ℚ :=
  (obs.reverse.find? (fun p => p.1 = m)).map Prod.snd

/-- `Object.keys(roiMap).sort()[0]`: the value at the smallest key, or 0
when there are no observations. -/
def firstRoiValue (obs : List (ℤ × ℚ)) : ℚ :=
  match (obs.map Prod.fst).min? with
  | none => 0
  | some k => (roiLookup obs k).getD 0

/-- The per-loan fill over the shared grid: `null` before the purchase
date, otherwise the last observed ROI (initialized to the loan's first
observed ROI). -/
def fillData (purchase : PDate) (lookup : ℤ → Option ℚ) :
    ℚ → List ℤ → List (Option ℚ)
  | _, [] => []
  | lastKnown, m :: ms =>
    if PDate.lt ⟨m, 1⟩ purchase then none :: fillData purchase lookup lastKnown ms
    else
      match lookup m with
      | some v => some v :: fillData purchase lookup v ms
      | none => some lastKnown :: fillData purchase lookup lastKnown ms

/-- One loan's aligned data series. -/
def perLoanDataOf (l : RLoan) (dates : List ℤ) : List (Option ℚ) :=
  let obs := roiObsOf l
  fillData l.purchaseDate (roiLookup obs) (firstRoiValue obs) dates

/-- Output of `buildProjectedRoiTimeline` (presentation-only fields such
as `name` and `color` are dropped; `perLoanSeries` keeps the loans'
order). -/
structure Timeline where
  dates : List ℤ
  perLoanSeries : List (List (Option ℚ))
  weightedSeries : List ℚ
deriving DecidableEq, Repr

/-- The maturity date used for the global end: purchase date plus
`Math.round((termYears + graceYears) * 12)` months. -/
def maturityOf (l : RLoan) : PDate :=
  { month := l.purchaseDate.month + round ((l.termYears + l.graceYears) * 12)
    day := l.purchaseDate.day }

/-- The `weightedSum` accumulation of one month of the weighted series:
loans whose aligned value is non-null contribute `roi * purchasePrice`. -/
def weightedSumAt (pairs : List (RLoan × List (Option ℚ))) (j : ℕ) : ℚ :=
  pairs.foldl (fun s lp =>
    match lp.2.get? j with
    | some (some y) => s + y * lp.1.purchasePrice
    | _ => s) 0

/-- The weighted series: each month divides the weighted sum by the total
purchase price of *all* loans (0 when that total is 0). -/
def weightedSeriesOf (loans : List RLoan) (perLoanSeries : List (List (Option ℚ)))
    (numDates : ℕ) : List ℚ :=
  let totalInvested := loans.foldl (fun s l => s + l.purchasePrice) 0
  (List.range numDates).map fun j =>
    if totalInvested = 0 then 0
    else weightedSumAt (loans.zip perLoanSeries) j / totalInvested

/-- `buildProjectedRoiTimeline(loans)`.  The grid runs from the first of
the earliest purchase month while `cursor <= latestMaturity`. -/
def buildProjectedRoiTimeline (loans : List RLoan) : Timeline :=
  match loans with
  | [] => { dates := [], perLoanSeries := [], weightedSeries := [] }
  | l0 :: _ =>
    let earliestPurchase :=
      loans.foldl (fun earliest l =>
        if PDate.lt l.purchaseDate earliest then l.purchaseDate else earliest)
        l0.purchaseDate
    let latestMaturity :=
      loans.foldl (fun latest l =>
        if PDate.lt latest (maturityOf l) then maturityOf l else latest)
        earliestPurchase
    let n : ℕ :=
      (if 1 ≤ latestMaturity.day
       then latestMaturity.month - earliestPurchase.month + 1
       else latestMaturity.month - earliestPurchase.month).toNat
    let dates := (List.range n).map fun k => earliestPurchase.month + (k : ℤ)
    let perLoanSeries := loans.map fun l => perLoanDataOf l dates
    { dates := dates
      perLoanSeries := perLoanSeries
      weightedSeries := weightedSeriesOf loans perLoanSeries dates.length }

/-! ### `computeWeightedRoiAsOfMonth` and `computeKPIs` -/

/-- A `roiSeries` entry as read by the KPI functions: `(month of date, roi)`. -/
structure KEntry where
  date : ℤ
  roi : ℚ
deriving DecidableEq, Repr

/-- An amortization-schedule row as read by `computeKPIs`. -/
structure KRow where
  isOwned : Bool
  loanDate : ℤ
  principalPaid : ℚ
deriving DecidableEq, Repr

/-- A loan as read by the KPI functions. -/
structure KLoan where
  purchasePrice : ℚ
  roiSeries : List KEntry
  schedule : List KRow
deriving DecidableEq, Repr

/-- Stable insertion by `date` (ascending), mirroring the defensive
`sort` of `getRoiEntryAsOfMonth`. -/
def insertByDate (r : KEntry) : List KEntry → List KEntry
  | [] => [r]
  | x :: xs => if x.date ≤ r.date then x :: insertByDate r xs else r :: x :: xs

/-- Stable sort by `date`. -/
def sortByDate (l : List KEntry) : List KEntry :=
  l.foldl (fun acc r => insertByDate r acc) []

/-- `getRoiEntryAsOfMonth(loan, monthDate)`: the last entry of the sorted
series whose date is on or before the end of the target month (dates are
first-of-month, so the clamp-to-month-end comparison is a month
comparison). -/
def getRoiEntryAsOfMonth (l : KLoan) (asOfMonth : ℤ) : Option KEntry :=
  ((sortByDate l.roiSeries).reverse).find? fun e => e.date ≤ asOfMonth

/-- `computeWeightedRoiAsOfMonth(loans, monthDate)`. -/
def computeWeightedRoiAsOfMonth (loans : List KLoan) (asOfMonth : ℤ) : ℚ :=
  let totalInvested := loans.foldl (fun s l => s + l.purchasePrice) 0
  if totalInvested = 0 then 0
  else
    (loans.foldl (fun s l =>
      match getRoiEntryAsOfMonth l asOfMonth with
      | some e => s + e.roi * l.purchasePrice
      | none => s) 0) / totalInvested

/-- The KPI record returned by `computeKPIs`. -/
structure KPIs where
  totalInvested : ℚ
  weightedROI : ℚ
  projectedWeightedROI : ℚ
  capitalRecoveredAmount : ℚ
  capitalRecoveryPct : ℚ
deriving DecidableEq, Repr

/-- `computeKPIs(loans, asOfMonth)`. -/
def computeKPIs (loans : List KLoan) (asOfMonth : ℤ) : KPIs :=
  let totalInvested := loans.foldl (fun s l => s + l.purchasePrice) 0
  if totalInvested = 0 then
    { totalInvested := 0, weightedROI := 0, projectedWeightedROI := 0,
      capitalRecoveredAmount := 0, capitalRecoveryPct := 0 }
  else
    let recovered := loans.foldl (fun s l =>
      s + l.schedule.foldl (fun t r =>
        if r.isOwned ∧ r.loanDate ≤ asOfMonth then t + r.principalPaid else t) 0) 0
    { totalInvested := totalInvested
      weightedROI := computeWeightedRoiAsOfMonth loans asOfMonth
      projectedWeightedROI :=
        (loans.foldl (fun s l =>
          s + (match l.roiSeries.getLast? with
               | some e => e.roi
               | none => 0) * l.purchasePrice) 0) / totalInvested
      capitalRecoveredAmount := recovered
      capitalRecoveryPct := if 0 < totalInvested then recovered / totalInvested else 0 }

/-! ## Helper lemmas about the amortization walk -/

theorem mem_dropLast_cons {α : Type} {a r : α} {l : List α}
    (h : r ∈ (a :: l).dropLast) : r = a ∨ r ∈ l.dropLast := by
  cases l with
  | nil => simp at h
  | cons b t =>
    rw [List.dropLast_cons₂] at h
    exact List.mem_cons.mp h

theorem applyPrepays_fst_nonneg :
    ∀ (amts : List ℚ) (acc : ℚ × ℚ), 0 ≤ acc.1 →
      0 ≤ (amts.foldl
        (fun acc amt => if amt ≤ 0 then acc
          else (acc.1 - min acc.1 amt, acc.2 + min acc.1 amt)) acc).1 := by
  intro amts
  induction amts with
  | nil => intro acc h; simpa using h
  | cons a l ih =>
    intro acc h
    by_cases ha : a ≤ 0
    · simpa [ha] using ih acc h
    · simp only [List.foldl_cons, if_neg ha]
      apply ih
      have := min_le_left acc.1 a
      simp only []
      linarith

theorem applyPrepays_nonneg {b : ℚ} (amts : List ℚ) (h : 0 ≤ b) :
    0 ≤ (applyPrepays b amts).1 :=
  applyPrepays_fst_nonneg amts (b, 0) h

theorem applyPrepays_zero (amts : List ℚ) : applyPrepays 0 amts = (0, 0) := by
  unfold applyPrepays
  induction amts with
  | nil => rfl
  | cons a l ih =>
    by_cases h : a ≤ 0
    · simpa [h] using ih
    · have h0 : min (0 : ℚ) a = 0 := min_eq_left (le_of_not_le h)
      simpa [h, h0] using ih

/-- One annuity payment over a single remaining month pays the balance
plus one month of interest. -/
theorem dynPayment_one {B r : ℚ} (hr : 0 ≤ r) : dynPayment B r 1 = B * (1 + r) := by
  unfold dynPayment
  by_cases h0 : r = 0
  · simp [h0]
  · rw [if_neg h0]
    have h1r : (1 : ℚ) + r ≠ 0 := by positivity
    have hz : ((1 : ℚ) + r) ^ (-(1:ℤ)) = (1 + r)⁻¹ := zpow_neg_one _
    rw [hz]
    have hden : 1 - (1 + r)⁻¹ = r / (1 + r) := by
      field_simp
    rw [hden]
    field_simp
    ring

/-- When the calendar month matches the default month, the walk pushes
exactly the terminal row and stops, whatever the deferral state. -/
theorem amortLoop_default_step (ctx : Ctx) (st : LoopState) (fuel : ℕ)
    (hi : st.i < ctx.totalMonths) (hm : ctx.defaultMonth = some st.calMonth) :
    amortLoop ctx (fuel + 1) st = [defaultRowOf ctx st] := by
  simp [amortLoop, hi, hm]

/-- One step of the walk in the repayment phase (no default this month, no
deferral active or starting): the payment is `dynPayment` of the current
balance over the remaining contractual payment months. -/
theorem amortLoop_repayment_eq (ctx : Ctx) (st : LoopState) (fuel : ℕ)
    (hi : st.i < ctx.totalMonths)
    (hm : ctx.defaultMonth ≠ some st.calMonth)
    (hrem0 : st.deferralRemaining = 0)
    (hds : ctx.deferralStart st.calMonth = 0)
    (hgr : ¬ st.calMonth - ctx.startMonth < ctx.graceMonths) :
    amortLoop ctx (fuel + 1) st =
      (let pay := dynPayment st.balance ctx.monthlyRate
          (remainingOf ctx (st.calMonth - ctx.startMonth))
       let pp := max 0 (pay - st.balance * ctx.monthlyRate)
       let pr := applyPrepays (max 0 (st.balance - pp)) (ctx.prepays st.calMonth)
       let row := normalRowOf ctx st pay (pp + pr.2) (st.balance * ctx.monthlyRate) pr.1 pr.2
       if pr.1 ≤ 0 then [row]
       else row :: amortLoop ctx fuel
         { i := st.i + 1
           calMonth := st.calMonth + 1
           balance := pr.1
           deferralRemaining := 0
           deferralTotal := st.deferralTotal
           count := st.count + 1 }) := by
  rw [amortLoop]
  rw [if_pos hi, if_neg hm]
  simp only [hds, hrem0, if_neg hgr]
  simp only [ne_eq, not_true_eq_false, and_false, if_false, lt_irrefl, reduceIte]

/-- In a repayment month with exactly one remaining contractual payment
month and a non-negative balance, the dynamic payment clears the balance
exactly and the walk stops with a zero-balance row. -/
theorem amortLoop_final_month_payoff (ctx : Ctx) (st : LoopState) (fuel : ℕ)
    (hi : st.i < ctx.totalMonths)
    (hm : ctx.defaultMonth ≠ some st.calMonth)
    (hrem0 : st.deferralRemaining = 0)
    (hds : ctx.deferralStart st.calMonth = 0)
    (hgr : ¬ st.calMonth - ctx.startMonth < ctx.graceMonths)
    (hone : remainingOf ctx (st.calMonth - ctx.startMonth) = 1)
    (hmr : 0 ≤ ctx.monthlyRate) (hB : 0 ≤ st.balance) :
    ∃ row, amortLoop ctx (fuel + 1) st = [row] ∧ row.balance = 0 ∧
      row.defaulted = false ∧ row.isDeferred = false := by
  have heq := amortLoop_repayment_eq ctx st fuel hi hm hrem0 hds hgr
  rw [hone] at heq
  have hpay : dynPayment st.balance ctx.monthlyRate 1 = st.balance * (1 + ctx.monthlyRate) :=
    dynPayment_one hmr
  have hpp : max 0 (dynPayment st.balance ctx.monthlyRate 1 - st.balance * ctx.monthlyRate)
      = st.balance := by
    rw [hpay]
    have h2 : st.balance * (1 + ctx.monthlyRate) - st.balance * ctx.monthlyRate = st.balance := by
      ring
    rw [h2]
    exact max_eq_right hB
  simp only [hpp, sub_self, max_self, max_eq_right (le_refl (0:ℚ)), sub_zero] at heq
  rw [applyPrepays_zero] at heq
  simp only [le_refl, if_true, reduceIte] at heq
  refine ⟨_, heq, ?_, rfl, rfl⟩
  show round2 (0 : ℚ) = 0
  exact round2_zero

/-- One step of the walk when a deferral starts this calendar month (and
no default falls on it): a deferred row is pushed and the contractual
index `i` does not advance. -/
theorem amortLoop_deferral_step (ctx : Ctx) (st : LoopState) (fuel : ℕ)
    (hi : st.i < ctx.totalMonths)
    (hm : ctx.defaultMonth ≠ some st.calMonth)
    (hrem0 : st.deferralRemaining = 0)
    (hds : ctx.deferralStart st.calMonth ≠ 0) :
    amortLoop ctx (fuel + 1) st =
      deferralRowOf ctx st (ctx.deferralStart st.calMonth) (ctx.deferralStart st.calMonth)
        (st.balance * ctx.monthlyRate)
        (applyPrepays (st.balance + st.balance * ctx.monthlyRate) (ctx.prepays st.calMonth)).2
        (applyPrepays (st.balance + st.balance * ctx.monthlyRate) (ctx.prepays st.calMonth)).1 ::
      amortLoop ctx fuel
        { i := st.i
          calMonth := st.calMonth + 1
          balance := (applyPrepays (st.balance + st.balance * ctx.monthlyRate)
            (ctx.prepays st.calMonth)).1
          deferralRemaining := ctx.deferralStart st.calMonth - 1
          deferralTotal := ctx.deferralStart st.calMonth
          count := st.count + 1 } := by
  rw [amortLoop]
  rw [if_pos hi, if_neg hm]
  simp only [hrem0, hds, ne_eq, not_false_eq_true, and_self, if_true, reduceIte,
    Nat.pos_of_ne_zero hds]

/-- One step of the walk while a deferral is already active: a deferred
row is pushed, the remaining counter decreases, and `i` does not advance. -/
theorem amortLoop_deferral_active_step (ctx : Ctx) (st : LoopState) (fuel : ℕ)
    (hi : st.i < ctx.totalMonths)
    (hm : ctx.defaultMonth ≠ some st.calMonth)
    (hrem : 0 < st.deferralRemaining) :
    amortLoop ctx (fuel + 1) st =
      deferralRowOf ctx st st.deferralRemaining st.deferralTotal
        (st.balance * ctx.monthlyRate)
        (applyPrepays (st.balance + st.balance * ctx.monthlyRate) (ctx.prepays st.calMonth)).2
        (applyPrepays (st.balance + st.balance * ctx.monthlyRate) (ctx.prepays st.calMonth)).1 ::
      amortLoop ctx fuel
        { i := st.i
          calMonth := st.calMonth + 1
          balance := (applyPrepays (st.balance + st.balance * ctx.monthlyRate)
            (ctx.prepays st.calMonth)).1
          deferralRemaining := st.deferralRemaining - 1
          deferralTotal := st.deferralTotal
          count := st.count + 1 } := by
  have hne : ¬ st.deferralRemaining = 0 := Nat.pos_iff_ne_zero.mp hrem
  rw [amortLoop]
  rw [if_pos hi, if_neg hm]
  simp only [hne, false_and, if_false, reduceIte]
  rw [if_pos hrem]

/-- Within the contractual horizon the walk always pushes at least one row. -/
theorem amortLoop_ne_nil (ctx : Ctx) (st : LoopState) (fuel : ℕ)
    (hi : st.i < ctx.totalMonths) :
    amortLoop ctx (fuel + 1) st ≠ [] := by
  rw [amortLoop, if_pos hi]
  split
  · simp
  · simp only []
    split <;> (try split) <;> (try split) <;> (try split) <;> simp

/-- Every row of the walk except possibly the last is non-defaulted: rows
never follow a terminal default row. -/
theorem amortLoop_dropLast_not_defaulted (ctx : Ctx) :
    ∀ (fuel : ℕ) (st : LoopState), ∀ r ∈ (amortLoop ctx fuel st).dropLast, r.defaulted = false := by
  intro fuel
  induction fuel with
  | zero => intro st r hr; simp [amortLoop] at hr
  | succ n ih =>
    intro st r hr
    rw [amortLoop] at hr
    split at hr
    · split at hr
      · simp at hr
      · simp only [] at hr
        split at hr <;> (try split at hr) <;> (try split at hr) <;>
            (try split at hr) <;>
          first
          | (simp at hr; done)
          | (rcases mem_dropLast_cons hr with rfl | h1 <;>
              first
              | rfl
              | exact ih _ r h1)
    · simp at hr

/-- With a non-negative monthly rate and a non-negative starting balance,
every row's balance is non-negative. -/
theorem amortLoop_balance_nonneg (ctx : Ctx) (hmr : 0 ≤ ctx.monthlyRate) :
    ∀ (fuel : ℕ) (st : LoopState), 0 ≤ st.balance →
      ∀ r ∈ amortLoop ctx fuel st, 0 ≤ r.balance := by
  intro fuel
  induction fuel with
  | zero => intro st _ r hrm; simp [amortLoop] at hrm
  | succ n ih =>
    intro st hB r hrm
    have hBr : 0 ≤ st.balance * ctx.monthlyRate := mul_nonneg hB hmr
    have hBB : 0 ≤ st.balance + st.balance * ctx.monthlyRate := by linarith
    have happ1 : 0 ≤ (applyPrepays (st.balance + st.balance * ctx.monthlyRate)
        (ctx.prepays st.calMonth)).1 := applyPrepays_nonneg _ hBB
    rw [amortLoop] at hrm
    by_cases hi : st.i < ctx.totalMonths
    swap
    · simp [hi] at hrm
    rw [if_pos hi] at hrm
    by_cases hm : ctx.defaultMonth = some st.calMonth
    · rw [if_pos hm] at hrm
      simp only [List.mem_singleton] at hrm
      subst hrm
      show 0 ≤ round2 (st.balance - min st.balance ctx.defaultRecovery)
      apply round2_nonneg
      have := min_le_left st.balance ctx.defaultRecovery
      linarith
    · rw [if_neg hm] at hrm
      simp only [] at hrm
      generalize (if st.deferralRemaining = 0 ∧ ctx.deferralStart st.calMonth ≠ 0
        then ctx.deferralStart st.calMonth else st.deferralRemaining) = remv at hrm
      generalize (if st.deferralRemaining = 0 ∧ ctx.deferralStart st.calMonth ≠ 0
        then ctx.deferralStart st.calMonth else st.deferralTotal) = totv at hrm
      split at hrm
      · rcases List.mem_cons.mp hrm with rfl | h1
        · show 0 ≤ round2 (applyPrepays (st.balance + st.balance * ctx.monthlyRate)
            (ctx.prepays st.calMonth)).1
          exact round2_nonneg happ1
        · exact ih _ happ1 r h1
      · by_cases hgr : st.calMonth - ctx.startMonth < ctx.graceMonths
        · simp only [if_pos hgr] at hrm
          split at hrm
          · simp only [List.mem_singleton] at hrm
            subst hrm
            exact round2_nonneg happ1
          · rcases List.mem_cons.mp hrm with rfl | h1
            · exact round2_nonneg happ1
            · exact ih _ happ1 r h1
        · simp only [if_neg hgr] at hrm
          have hb1 : (0:ℚ) ≤ max 0 (st.balance -
              max 0 (dynPayment st.balance ctx.monthlyRate
                (remainingOf ctx (st.calMonth - ctx.startMonth)) -
                  st.balance * ctx.monthlyRate)) := le_max_left 0 _
          have happ2 : 0 ≤ (applyPrepays (max 0 (st.balance -
              max 0 (dynPayment st.balance ctx.monthlyRate
                (remainingOf ctx (st.calMonth - ctx.startMonth)) -
                  st.balance * ctx.monthlyRate))) (ctx.prepays st.calMonth)).1 :=
            applyPrepays_nonneg _ hb1
          split at hrm
          · simp only [List.mem_singleton] at hrm
            subst hrm
            exact round2_nonneg happ2
          · rcases List.mem_cons.mp hrm with rfl | h1
            · exact round2_nonneg happ2
            · exact ih _ happ2 r h1

/-- If the walk stops after a single non-defaulted row while contractual
months remain and the fuel is not exhausted, then no deferral was active
and none started that month (the balance-zero break is the only early
stop, and it can only fire outside the deferral branch). -/
theorem amortLoop_early_stop (ctx : Ctx) (st : LoopState) (fuel : ℕ)
    (hi1 : st.i + 1 < ctx.totalMonths)
    (hone : ∃ row, amortLoop ctx (fuel + 1 + 1) st = [row] ∧ row.defaulted = false) :
    st.deferralRemaining = 0 ∧ ctx.deferralStart st.calMonth = 0 := by
  obtain ⟨row, heq, hnd⟩ := hone
  have hi : st.i < ctx.totalMonths := Nat.lt_of_succ_lt hi1
  rw [amortLoop, if_pos hi] at heq
  by_cases hm : ctx.defaultMonth = some st.calMonth
  · rw [if_pos hm] at heq
    simp only [List.cons.injEq, and_true] at heq
    rw [← heq] at hnd
    simp [defaultRowOf] at hnd
  · rw [if_neg hm] at heq
    simp only [] at heq
    by_cases hact : st.deferralRemaining = 0 ∧ ctx.deferralStart st.calMonth ≠ 0
    · simp only [if_pos hact] at heq
      rw [if_pos (Nat.pos_of_ne_zero hact.2)] at heq
      have := (List.cons.injEq _ _ _ _).mp heq
      exact absurd this.2 (amortLoop_ne_nil ctx _ fuel (by simpa using hi))
    · simp only [if_neg hact] at heq
      by_cases hrem : 0 < st.deferralRemaining
      · rw [if_pos hrem] at heq
        have := (List.cons.injEq _ _ _ _).mp heq
        exact absurd this.2 (amortLoop_ne_nil ctx _ fuel (by simpa using hi))
      · have hrem0 : st.deferralRemaining = 0 := Nat.eq_zero_of_not_pos hrem
        have hds : ctx.deferralStart st.calMonth = 0 := by
          by_contra hne
          exact hact ⟨hrem0, hne⟩
        exact ⟨hrem0, hds⟩

/-- Same-month deferral requests are summed: the per-month total is
additive over the event list. -/
theorem deferralStartTotal_append (es1 es2 : List Event) (m : ℤ) :
    deferralStartTotal (es1 ++ es2) m =
      deferralStartTotal es1 m + deferralStartTotal es2 m := by
  unfold deferralStartTotal
  rw [List.filterMap_append, List.sum_append]

end LoanDash

/-! ## Scenario inputs and claims C1-C4 -/

namespace LoanDash

def scenarioLoan : Loan :=
  { principal := 10000, purchasePrice := 10000, nominalRate := 12/100,
    termYears := 1, graceYears := 0,
    loanStartDate := some ⟨0, 1⟩, purchaseDate := some ⟨0, 1⟩,
    ownershipPct := 1, events := [] }

def scenarioDeferralLoan : Loan :=
  { scenarioLoan with events := [Event.deferral ⟨1, 3⟩] }

/-- A zero-rate loan with a 3-month deferral: principal 120 over 12
payment months pays 10 per contractual month, so calendar- and
contractual-based remaining counts give visibly different payments. -/
def zeroRateDeferralLoan : Loan :=
  { principal := 120, purchasePrice := 120, nominalRate := 0,
    termYears := 1, graceYears := 0,
    loanStartDate := some ⟨0, 1⟩, purchaseDate := some ⟨0, 1⟩,
    ownershipPct := 1, events := [Event.deferral ⟨1, 3⟩] }

/-- C1 counterexample: the payment is computed over the remaining
*calendar* payment months, not the remaining *contractual* payment months
the claim asserts.  In the zero-rate 3-month-deferral scenario the fifth
row is only the second contractual payment month (contractualMonth 2 of
12, so 11 contractual payment months remain) and the balance entering it
is 110, yet its payment is 13.75 = `dynPayment 110 0 8` over the 8
remaining calendar months (`remainingOf` at calendar month 4); the
claimed formula over the 11 remaining contractual payment months would
give 10.00 from the same balance. -/
theorem C1_counterexample :
    (buildAmortScheduleCore zeroRateDeferralLoan 0).map Row.contractualMonth =
      [1, 2, 2, 2, 2, 3, 4, 5, 6, 7, 8, 9] ∧
    ((buildAmortScheduleCore zeroRateDeferralLoan 0).get? 3).map Row.balance =
      some 110 ∧
    ((buildAmortScheduleCore zeroRateDeferralLoan 0).get? 4).map Row.payment =
      some (1375/100) ∧
    remainingOf (mkCtx zeroRateDeferralLoan 0) (4 - 0) = 8 ∧
    round2 (dynPayment 110 0 8) = 1375/100 ∧
    round2 (dynPayment 110 0 11) = 10 := by
  refine ⟨?_, ?_, ?_, ?_, ?_, ?_⟩ <;> with_unfolding_all decide

/-- C1 (amended): in every repayment-phase step (past grace, no deferral
active or starting, no default this month) the walk computes the payment
afresh from the current balance and the remaining *calendar* payment
months - `max 1 (repaymentMonths - (calendar months since loan start -
graceMonths))`, a count that includes inserted deferral months - via
`dynPayment` (the annuity formula, degenerating to linear division at
zero rate); with one remaining payment month the payment clears a
non-negative balance exactly, so the schedule fully amortizes by the
final calendar payment month (for a loan without deferrals the calendar
and contractual counts coincide, giving the claim as written); and the
scenario principal=10000, rate=0.12, termYears=1, graceYears=0, no events
yields 12 rows, first-row interest 100.00 and final balance 0.00. -/
theorem C1_dynamic_payment_fully_amortizes :
    (∀ (ctx : Ctx) (st : LoopState) (fuel : ℕ),
      st.i < ctx.totalMonths →
      ctx.defaultMonth ≠ some st.calMonth →
      st.deferralRemaining = 0 →
      ctx.deferralStart st.calMonth = 0 →
      ¬ st.calMonth - ctx.startMonth < ctx.graceMonths →
      ∃ rest row, amortLoop ctx (fuel + 1) st = row :: rest ∧
        row.payment = round2 (dynPayment st.balance ctx.monthlyRate
          (remainingOf ctx (st.calMonth - ctx.startMonth))) ∧
        row.interest = round2 (st.balance * ctx.monthlyRate) ∧
        row.isDeferred = false ∧ row.defaulted = false) ∧
    (∀ (ctx : Ctx) (st : LoopState) (fuel : ℕ),
      st.i < ctx.totalMonths →
      ctx.defaultMonth ≠ some st.calMonth →
      st.deferralRemaining = 0 →
      ctx.deferralStart st.calMonth = 0 →
      ¬ st.calMonth - ctx.startMonth < ctx.graceMonths →
      remainingOf ctx (st.calMonth - ctx.startMonth) = 1 →
      0 ≤ ctx.monthlyRate → 0 ≤ st.balance →
      ∃ row, amortLoop ctx (fuel + 1) st = [row] ∧ row.balance = 0 ∧
        row.defaulted = false ∧ row.isDeferred = false) ∧
    (buildAmortScheduleCore scenarioLoan 0).length = 12 ∧
    ((buildAmortScheduleCore scenarioLoan 0).map Row.interest).head? = some 100 ∧
    ((buildAmortScheduleCore scenarioLoan 0).map Row.balance).getLast? = some 0 := by
  refine ⟨?_, ?_, ?_, ?_, ?_⟩
  · intro ctx st fuel hi hm hrem0 hds hgr
    have heq := amortLoop_repayment_eq ctx st fuel hi hm hrem0 hds hgr
    simp only [] at heq
    split at heq
    · exact ⟨[], _, heq, rfl, rfl, rfl, rfl⟩
    · exact ⟨_, _, heq, rfl, rfl, rfl, rfl⟩
  · intro ctx st fuel hi hm hrem0 hds hgr hone hmr hB
    exact amortLoop_final_month_payoff ctx st fuel hi hm hrem0 hds hgr hone hmr hB
  · with_unfolding_all decide
  · with_unfolding_all decide
  · with_unfolding_all decide

/-- Witness for C1 at the scenario loan: the first repayment step and the
final-month payoff, at concrete states. -/
theorem C1_witness :
    ((0 : ℕ) < (mkCtx scenarioLoan 0).totalMonths ∧
      (mkCtx scenarioLoan 0).defaultMonth ≠ some 0 ∧
      (∃ rest row,
        amortLoop (mkCtx scenarioLoan 0) 1
          { i := 0, calMonth := 0, balance := 10000,
            deferralRemaining := 0, deferralTotal := 0, count := 0 } = row :: rest ∧
        row.payment = round2 (dynPayment 10000 (mkCtx scenarioLoan 0).monthlyRate
          (remainingOf (mkCtx scenarioLoan 0) 0)) ∧
        row.interest = round2 (10000 * (mkCtx scenarioLoan 0).monthlyRate) ∧
        row.isDeferred = false ∧ row.defaulted = false)) ∧
    (∃ row,
      amortLoop (mkCtx scenarioLoan 0) 1
        { i := 11, calMonth := 11, balance := 100,
          deferralRemaining := 0, deferralTotal := 0, count := 11 } = [row] ∧
      row.balance = 0 ∧ row.defaulted = false ∧ row.isDeferred = false) := by
  constructor
  · refine ⟨by with_unfolding_all decide, by with_unfolding_all decide, ?_⟩
    exact C1_dynamic_payment_fully_amortizes.1 (mkCtx scenarioLoan 0)
      { i := 0, calMonth := 0, balance := 10000,
        deferralRemaining := 0, deferralTotal := 0, count := 0 } 0
      (by with_unfolding_all decide) (by with_unfolding_all decide) rfl
      (by with_unfolding_all decide) (by with_unfolding_all decide)
  · exact C1_dynamic_payment_fully_amortizes.2.1 (mkCtx scenarioLoan 0)
      { i := 11, calMonth := 11, balance := 100,
        deferralRemaining := 0, deferralTotal := 0, count := 11 } 0
      (by with_unfolding_all decide) (by with_unfolding_all decide) rfl
      (by with_unfolding_all decide) (by with_unfolding_all decide)
      (by with_unfolding_all decide) (by with_unfolding_all decide)
      (by with_unfolding_all decide)

end LoanDash

namespace LoanDash

def defaultScenarioLoan : Loan :=
  { scenarioLoan with events := [Event.defaultEv ⟨1, 500⟩] }

/-- C2: when the calendar month matches the default month the walk - in
any deferral state, before deferral or normal processing - emits exactly
one terminal row applying `min(balance, recoveryAmount)` as a final
principal reduction and stops; no row of any schedule follows a defaulted
row; and the concrete default scenario produces a 2-row schedule whose
defaulted flags are [false, true]. -/
theorem C2_default_terminal_row :
    (∀ (ctx : Ctx) (st : LoopState) (fuel : ℕ),
      st.i < ctx.totalMonths →
      ctx.defaultMonth = some st.calMonth →
      amortLoop ctx (fuel + 1) st = [defaultRowOf ctx st] ∧
        (defaultRowOf ctx st).principalPaid =
          round2 (min st.balance ctx.defaultRecovery) ∧
        (defaultRowOf ctx st).balance =
          round2 (st.balance - min st.balance ctx.defaultRecovery) ∧
        (defaultRowOf ctx st).defaulted = true ∧
        (defaultRowOf ctx st).loanDate = st.calMonth) ∧
    (∀ (loan : Loan) (start : ℤ),
      ∀ r ∈ (buildAmortScheduleCore loan start).dropLast, r.defaulted = false) ∧
    ((buildAmortScheduleCore defaultScenarioLoan 0).map Row.defaulted = [false, true] ∧
      (buildAmortScheduleCore defaultScenarioLoan 0).length = 2) := by
  refine ⟨?_, ?_, ?_⟩
  · intro ctx st fuel hi hm
    exact ⟨amortLoop_default_step ctx st fuel hi hm, rfl, rfl, rfl, rfl⟩
  · intro loan start
    exact amortLoop_dropLast_not_defaulted (mkCtx loan start) (amortFuel loan) _
  · constructor
    · with_unfolding_all decide
    · with_unfolding_all decide

/-- Witness for C2: the terminal step at a concrete state (with a deferral
active, showing the default is evaluated first), and the no-rows-after
property at the concrete default loan. -/
theorem C2_witness :
    (amortLoop (mkCtx defaultScenarioLoan 0) 1
        { i := 1, calMonth := 1, balance := 100,
          deferralRemaining := 5, deferralTotal := 5, count := 1 } =
      [defaultRowOf (mkCtx defaultScenarioLoan 0)
        { i := 1, calMonth := 1, balance := 100,
          deferralRemaining := 5, deferralTotal := 5, count := 1 }]) ∧
    (∀ r ∈ (buildAmortScheduleCore defaultScenarioLoan 0).dropLast, r.defaulted = false) := by
  constructor
  · exact (C2_default_terminal_row.1 (mkCtx defaultScenarioLoan 0)
      { i := 1, calMonth := 1, balance := 100,
        deferralRemaining := 5, deferralTotal := 5, count := 1 } 0
      (by with_unfolding_all decide) (by with_unfolding_all decide)).1
  · exact C2_default_terminal_row.2.1 defaultScenarioLoan 0

end LoanDash

namespace LoanDash

/-- C3 counterexample: the scenario loan with a 3-month deferral starting
in calendar month 1 still produces a 12-row schedule - exactly the length
of the schedule without the deferral, not 3 rows longer - because the
repayment payment is recomputed from calendar months since start, so the
walk still amortizes by the original final calendar month and stops early
on zero balance. -/
theorem C3_counterexample :
    (buildAmortScheduleCore scenarioLoan 0).length = 12 ∧
    ((buildAmortScheduleCore scenarioDeferralLoan 0).map Row.isDeferred).count true = 3 ∧
    (buildAmortScheduleCore scenarioDeferralLoan 0).length = 12 ∧
    ¬ ((buildAmortScheduleCore scenarioDeferralLoan 0).length =
        (buildAmortScheduleCore scenarioLoan 0).length + 3) := by
  refine ⟨?_, ?_, ?_, ?_⟩ <;> with_unfolding_all decide

/-- C3 (amended): same-month deferral requests are summed; a deferral
starting (or active) in a month with no default inserts a row flagged
`isDeferred = true` with no scheduled payment, capitalized accrued
interest, and an unchanged contractual index; in the scenario the three
deferral rows appear consecutively as rows 2-4 with the contractual
counter not advancing - but the schedule is *not* longer than the
baseline: both have 12 rows. -/
theorem C3_deferral_insertion_amended :
    (∀ (es1 es2 : List Event) (m : ℤ),
      deferralStartTotal (es1 ++ es2) m =
        deferralStartTotal es1 m + deferralStartTotal es2 m) ∧
    (∀ (ctx : Ctx) (st : LoopState) (fuel : ℕ),
      st.i < ctx.totalMonths →
      ctx.defaultMonth ≠ some st.calMonth →
      st.deferralRemaining = 0 →
      ctx.deferralStart st.calMonth ≠ 0 →
      ∃ rest row, amortLoop ctx (fuel + 1) st = row :: rest ∧
        row.isDeferred = true ∧ row.payment = 0 ∧ row.interest = 0 ∧
        row.contractualMonth = st.i + 1 ∧
        row.accruedInterest = round2 (st.balance * ctx.monthlyRate) ∧
        rest = amortLoop ctx fuel
          { i := st.i
            calMonth := st.calMonth + 1
            balance := (applyPrepays (st.balance + st.balance * ctx.monthlyRate)
              (ctx.prepays st.calMonth)).1
            deferralRemaining := ctx.deferralStart st.calMonth - 1
            deferralTotal := ctx.deferralStart st.calMonth
            count := st.count + 1 }) ∧
    (∀ (ctx : Ctx) (st : LoopState) (fuel : ℕ),
      st.i < ctx.totalMonths →
      ctx.defaultMonth ≠ some st.calMonth →
      0 < st.deferralRemaining →
      ∃ rest row, amortLoop ctx (fuel + 1) st = row :: rest ∧
        row.isDeferred = true ∧ row.payment = 0 ∧
        row.contractualMonth = st.i + 1 ∧
        rest = amortLoop ctx fuel
          { i := st.i
            calMonth := st.calMonth + 1
            balance := (applyPrepays (st.balance + st.balance * ctx.monthlyRate)
              (ctx.prepays st.calMonth)).1
            deferralRemaining := st.deferralRemaining - 1
            deferralTotal := st.deferralTotal
            count := st.count + 1 }) ∧
    ((buildAmortScheduleCore scenarioDeferralLoan 0).map Row.isDeferred =
      [false, true, true, true, false, false, false, false, false, false, false, false] ∧
     (buildAmortScheduleCore scenarioDeferralLoan 0).map Row.contractualMonth =
      [1, 2, 2, 2, 2, 3, 4, 5, 6, 7, 8, 9] ∧
     (buildAmortScheduleCore scenarioDeferralLoan 0).length =
       (buildAmortScheduleCore scenarioLoan 0).length) := by
  refine ⟨deferralStartTotal_append, ?_, ?_, ?_⟩
  · intro ctx st fuel hi hm hrem0 hds
    exact ⟨_, _, amortLoop_deferral_step ctx st fuel hi hm hrem0 hds,
      rfl, rfl, rfl, rfl, rfl, rfl⟩
  · intro ctx st fuel hi hm hrem
    exact ⟨_, _, amortLoop_deferral_active_step ctx st fuel hi hm hrem,
      rfl, rfl, rfl, rfl⟩
  · refine ⟨?_, ?_, ?_⟩ <;> with_unfolding_all decide

/-- Witness for C3: same-month summing at two concrete deferral events and
the deferral-insertion step at a concrete state of the scenario loan. -/
theorem C3_witness :
    (deferralStartTotal ([Event.deferral ⟨5, 2⟩] ++ [Event.deferral ⟨5, 3⟩]) 5 =
      deferralStartTotal [Event.deferral ⟨5, 2⟩] 5 +
        deferralStartTotal [Event.deferral ⟨5, 3⟩] 5) ∧
    (∃ rest row, amortLoop (mkCtx scenarioDeferralLoan 0) 1
        { i := 1, calMonth := 1, balance := 9212,
          deferralRemaining := 0, deferralTotal := 0, count := 1 } = row :: rest ∧
      row.isDeferred = true ∧ row.payment = 0 ∧ row.interest = 0 ∧
      row.contractualMonth = 2 ∧
      row.accruedInterest = round2 (9212 * (mkCtx scenarioDeferralLoan 0).monthlyRate) ∧
      rest = amortLoop (mkCtx scenarioDeferralLoan 0) 0
        { i := 1
          calMonth := 2
          balance := (applyPrepays (9212 + 9212 * (mkCtx scenarioDeferralLoan 0).monthlyRate)
            ((mkCtx scenarioDeferralLoan 0).prepays 1)).1
          deferralRemaining := (mkCtx scenarioDeferralLoan 0).deferralStart 1 - 1
          deferralTotal := (mkCtx scenarioDeferralLoan 0).deferralStart 1
          count := 2 }) := by
  constructor
  · exact C3_deferral_insertion_amended.1 [Event.deferral ⟨5, 2⟩] [Event.deferral ⟨5, 3⟩] 5
  · exact C3_deferral_insertion_amended.2.1 (mkCtx scenarioDeferralLoan 0)
      { i := 1, calMonth := 1, balance := 9212,
        deferralRemaining := 0, deferralTotal := 0, count := 1 } 0
      (by with_unfolding_all decide) (by with_unfolding_all decide) rfl
      (by with_unfolding_all decide)

end LoanDash

namespace LoanDash

def negPrincipalLoan : Loan :=
  { principal := -100, purchasePrice := 100, nominalRate := 12/100,
    termYears := 1, graceYears := 1,
    loanStartDate := some ⟨0, 1⟩, purchaseDate := some ⟨0, 1⟩,
    ownershipPct := 1, events := [] }

/-- C4 counterexample: a loan with nominalRate = 0.12 >= 0 but negative
principal -100 and a grace year produces a first row with balance -101,
so nonnegative nominal rate alone does not make every row's balance
non-negative. -/
theorem C4_counterexample :
    0 ≤ negPrincipalLoan.nominalRate ∧
    ((buildAmortScheduleCore negPrincipalLoan 0).map Row.balance).head? = some (-101) ∧
    ¬ (∀ r ∈ buildAmortScheduleCore negPrincipalLoan 0, 0 ≤ r.balance) := by
  refine ⟨by with_unfolding_all decide, by with_unfolding_all decide, ?_⟩
  intro hall
  have h1 : ((buildAmortScheduleCore negPrincipalLoan 0).map Row.balance).head? =
      some (-101) := by with_unfolding_all decide
  rcases hmem : buildAmortScheduleCore negPrincipalLoan 0 with _ | ⟨r0, rest⟩
  · rw [hmem] at h1; simp at h1
  · rw [hmem] at h1
    simp only [List.map_cons, List.head?_cons, Option.some.injEq] at h1
    have := hall r0 (by rw [hmem]; exact List.mem_cons_self r0 rest)
    rw [h1] at this
    norm_num at this

def zeroBalanceRow : Row :=
  { monthIndex := 1, loanDate := 0, payment := 0, principalPaid := 0,
    interest := 0, balance := 0, prepayment := 0, accruedInterest := 0,
    isDeferred := false, deferralIndex := none, deferralRemaining := none,
    isOwned := true, defaulted := false, recovery := 0, isTerminal := false,
    contractualMonth := 1 }

/-- C4 (amended): for every loan with non-negative nominal rate *and
non-negative principal* every row's balance is >= 0; and the walk stops
early (a single non-defaulted row with contractual months remaining and
fuel to spare) only from the normal branch, where no deferral is active
and none starts that month. -/
theorem C4_balance_nonneg_amended :
    (∀ (loan : Loan) (start : ℤ), 0 ≤ loan.nominalRate → 0 ≤ loan.principal →
      ∀ r ∈ buildAmortScheduleCore loan start, 0 ≤ r.balance) ∧
    (∀ (ctx : Ctx) (st : LoopState) (fuel : ℕ),
      st.i + 1 < ctx.totalMonths →
      (∃ row, amortLoop ctx (fuel + 1 + 1) st = [row] ∧ row.defaulted = false) →
      st.deferralRemaining = 0 ∧ ctx.deferralStart st.calMonth = 0) := by
  constructor
  · intro loan start hrate hp r hr
    have hmr : 0 ≤ (mkCtx loan start).monthlyRate := by
      show 0 ≤ loan.nominalRate / 12
      positivity
    exact amortLoop_balance_nonneg (mkCtx loan start) hmr (amortFuel loan) _ hp r hr
  · exact amortLoop_early_stop

/-- Witness for C4 at the scenario loan and at a concrete zero-balance
state triggering the early stop. -/
theorem C4_witness :
    (∀ r ∈ buildAmortScheduleCore scenarioLoan 0, 0 ≤ r.balance) ∧
    ((mkCtx scenarioLoan 0).totalMonths = 12 ∧
      ({ i := 0, calMonth := 0, balance := 0, deferralRemaining := 0,
         deferralTotal := 0, count := 0 : LoopState }.deferralRemaining = 0 ∧
        (mkCtx scenarioLoan 0).deferralStart 0 = 0)) := by
  refine ⟨?_, by with_unfolding_all decide, ?_⟩
  · exact C4_balance_nonneg_amended.1 scenarioLoan 0
      (by with_unfolding_all decide) (by with_unfolding_all decide)
  · exact C4_balance_nonneg_amended.2 (mkCtx scenarioLoan 0)
      { i := 0, calMonth := 0, balance := 0,
        deferralRemaining := 0, deferralTotal := 0, count := 0 } 0
      (by with_unfolding_all decide)
      ⟨zeroBalanceRow, by with_unfolding_all decide, by with_unfolding_all decide⟩

end LoanDash

/-! ## Claim C7: earnings engine -/

namespace LoanDash

theorem insertByLoanDate_append {r : ERow} :
    ∀ {acc : List ERow}, (∀ x ∈ acc, x.loanDate ≤ r.loanDate) →
      insertByLoanDate r acc = acc ++ [r] := by
  intro acc
  induction acc with
  | nil => intro _; rfl
  | cons a l ih =>
    intro h
    rw [insertByLoanDate, if_pos (h a (List.mem_cons_self a l))]
    rw [ih fun x hx => h x (List.mem_cons_of_mem a hx)]
    rfl

theorem foldl_insertByLoanDate_sorted :
    ∀ (l acc : List ERow),
      List.Pairwise (fun a b => a.loanDate ≤ b.loanDate) l →
      (∀ x ∈ acc, ∀ y ∈ l, x.loanDate ≤ y.loanDate) →
      l.foldl (fun acc r => insertByLoanDate r acc) acc = acc ++ l := by
  intro l
  induction l with
  | nil => intro acc _ _; simp
  | cons r rs ih =>
    intro acc hp hcross
    rw [List.foldl_cons]
    rw [insertByLoanDate_append (fun x hx => hcross x hx r (List.mem_cons_self r rs))]
    rw [ih (acc ++ [r]) (List.Pairwise.of_cons hp) ?_]
    · simp
    · intro x hx y hy
      rcases List.mem_append.mp hx with hx1 | hx1
      · exact hcross x hx1 y (List.mem_cons_of_mem r hy)
      · rw [List.mem_singleton.mp hx1]
        exact (List.pairwise_cons.mp hp).1 y hy

theorem sortByLoanDate_sorted_id (l : List ERow)
    (h : List.Pairwise (fun a b => a.loanDate ≤ b.loanDate) l) :
    sortByLoanDate l = l := by
  unfold sortByLoanDate
  rw [foldl_insertByLoanDate_sorted l [] h (by intro x hx; simp at hx)]
  rfl

theorem earningsLoop_length (ls ms : ℤ) :
    ∀ (rows : List Row) (a b c : ℚ),
      (earningsLoop ls ms rows a b c).length = rows.length := by
  intro rows
  induction rows with
  | nil => intro a b c; rfl
  | cons r rs ih => intro a b c; rw [earningsLoop]; simp [ih]

theorem earningsLoop_loanDate_map (ls ms : ℤ) :
    ∀ (rows : List Row) (a b c : ℚ),
      (earningsLoop ls ms rows a b c).map ERow.loanDate =
        rows.map (fun r => ls + ((r.monthIndex : ℤ) - 1)) := by
  intro rows
  induction rows with
  | nil => intro a b c; rfl
  | cons r rs ih => intro a b c; rw [earningsLoop]; simp [ih, mkERow]

/-- Pointwise relation of C7 between an amortization row and its earnings row. -/
def C7Rel (r : Row) (e : ERow) : Prop :=
  e.isDeferralMonth = r.isDeferred ∧
  (r.isDeferred = true →
    e.principalPaid = 0 ∧ e.interestPaid = 0 ∧ e.feeThisMonth = 0 ∧
    e.monthlyPrincipal = 0 ∧ e.monthlyInterest = 0 ∧ e.monthlyFees = 0)

/-- Adjacent relation of C7: a deferred earnings row repeats the previous
row's cumulative totals. -/
def C7Adj (a b : ERow) : Prop :=
  b.isDeferralMonth = true →
    b.cumPrincipal = a.cumPrincipal ∧ b.cumInterest = a.cumInterest ∧
    b.cumFees = a.cumFees

theorem principalContrib_deferred {ms : ℤ} {r : Row} (h : r.isDeferred = true) :
    principalContrib ms r = 0 := by
  simp [principalContrib, h]

theorem interestContrib_deferred {ms : ℤ} {r : Row} (h : r.isDeferred = true) :
    interestContrib ms r = 0 := by
  simp [interestContrib, h]

theorem feeContrib_deferred {ms : ℤ} {r : Row} (h : r.isDeferred = true) :
    feeContrib ms r = 0 := by
  simp [feeContrib, h]

theorem mkERow_cum_deferred {ls ms : ℤ} {r : Row} {a b c : ℚ}
    (h : r.isDeferred = true) (ha : round2 a = a) (hb : round2 b = b) (hc : round2 c = c) :
    (mkERow ls ms r a b c).cumPrincipal = a ∧
    (mkERow ls ms r a b c).cumInterest = b ∧
    (mkERow ls ms r a b c).cumFees = c := by
  unfold mkERow
  simp only [principalContrib_deferred h, interestContrib_deferred h, feeContrib_deferred h,
    add_zero, ha, hb, hc]
  exact ⟨trivial, trivial, trivial⟩

theorem earningsLoop_facts (ls ms : ℤ) :
    ∀ (rows : List Row) (a b c : ℚ),
      round2 a = a → round2 b = b → round2 c = c →
      List.Forall₂ C7Rel rows (earningsLoop ls ms rows a b c) ∧
      List.Chain' C7Adj (earningsLoop ls ms rows a b c) ∧
      (∀ e ∈ (earningsLoop ls ms rows a b c).head?, e.isDeferralMonth = true →
        e.cumPrincipal = a ∧ e.cumInterest = b ∧ e.cumFees = c) := by
  intro rows
  induction rows with
  | nil =>
    intro a b c _ _ _
    exact ⟨List.Forall₂.nil, List.chain'_nil, by simp [earningsLoop]⟩
  | cons r rs ih =>
    intro a b c ha hb hc
    rw [earningsLoop]
    obtain ⟨ihF, ihC, ihH⟩ :=
      ih (round2 (a + principalContrib ms r)) (round2 (b + interestContrib ms r))
        (round2 (c + feeContrib ms r)) (round2_idem _) (round2_idem _) (round2_idem _)
    have hcums : (mkERow ls ms r a b c).cumPrincipal = round2 (a + principalContrib ms r) ∧
        (mkERow ls ms r a b c).cumInterest = round2 (b + interestContrib ms r) ∧
        (mkERow ls ms r a b c).cumFees = round2 (c + feeContrib ms r) :=
      ⟨rfl, rfl, rfl⟩
    refine ⟨List.Forall₂.cons ?_ ihF, ?_, ?_⟩
    · constructor
      · rfl
      · intro hdef
        have hP := @principalContrib_deferred ms r hdef
        have hI := @interestContrib_deferred ms r hdef
        have hF := @feeContrib_deferred ms r hdef
        unfold mkERow
        simp only [hP, hI, hF, add_zero, ha, hb, hc, hdef, if_true, sub_self, round2_zero]
        exact ⟨trivial, trivial, trivial, trivial, trivial, trivial⟩
    · rw [List.chain'_cons']
      refine ⟨?_, ihC⟩
      intro e1 he1 hd1
      obtain ⟨h1, h2, h3⟩ := ihH e1 he1 hd1
      rw [h1, h2, h3]
      exact ⟨hcums.1.symm, hcums.2.1.symm, hcums.2.2.symm⟩
    · intro e he hd
      simp only [List.head?_cons, Option.mem_def, Option.some.injEq] at he
      subst he
      have hP := @principalContrib_deferred ms r (by simpa [mkERow] using hd)
      have hI := @interestContrib_deferred ms r (by simpa [mkERow] using hd)
      have hF := @feeContrib_deferred ms r (by simpa [mkERow] using hd)
      rw [hcums.1, hcums.2.1, hcums.2.2, hP, hI, hF]
      simp [ha, hb, hc]

end LoanDash

namespace LoanDash

/-- C7: the earnings map keeps one earnings row per amortization row (in
order, since sorting by loanDate is the identity on the
monotone-month-index schedules the engine produces); a row flagged
deferred contributes zero principal, interest and fees (its override
fields are zero and its monthly deltas are zero), and its cumulative
totals repeat the previous earnings row's (0 for a first deferred row). -/
theorem C7_deferred_rows_zero_earnings :
    ∀ (amortSchedule : List Row) (ls pd : PDate) (es : List ERow),
      List.Pairwise (fun a b : Row => a.monthIndex < b.monthIndex) amortSchedule →
      buildEarningsSchedule amortSchedule (some ls) (some pd) = .ok es →
      es.length = amortSchedule.length ∧
      List.Forall₂ C7Rel amortSchedule es ∧
      List.Chain' C7Adj es ∧
      (∀ e ∈ es.head?, e.isDeferralMonth = true →
        e.cumPrincipal = 0 ∧ e.cumInterest = 0 ∧ e.cumFees = 0) := by
  intro rows ls pd es hmono heq
  by_cases hne : rows.isEmpty
  · rw [buildEarningsSchedule, if_pos hne] at heq
    have hes : es = [] := by
      cases heq
      rfl
    subst hes
    rw [List.isEmpty_iff.mp hne]
    exact ⟨rfl, List.Forall₂.nil, List.chain'_nil, by simp⟩
  · rw [buildEarningsSchedule, if_neg hne] at heq
    have hes : es = sortByLoanDate
        (earningsLoop ls.month (pd.month - ls.month) rows 0 0 0) := by
      cases heq
      rfl
    have hpw : List.Pairwise (fun a b : ERow => a.loanDate ≤ b.loanDate)
        (earningsLoop ls.month (pd.month - ls.month) rows 0 0 0) := by
      have hmap := earningsLoop_loanDate_map ls.month (pd.month - ls.month) rows 0 0 0
      have h1 : List.Pairwise (· ≤ ·)
          ((earningsLoop ls.month (pd.month - ls.month) rows 0 0 0).map ERow.loanDate) := by
        rw [hmap, List.pairwise_map]
        apply hmono.imp
        intro a b hab
        have : (a.monthIndex : ℤ) ≤ (b.monthIndex : ℤ) := by exact_mod_cast le_of_lt hab
        linarith
      rw [List.pairwise_map] at h1
      exact h1
    rw [sortByLoanDate_sorted_id _ hpw] at hes
    subst hes
    obtain ⟨hF, hC, hH⟩ := earningsLoop_facts ls.month (pd.month - ls.month) rows 0 0 0
      round2_zero round2_zero round2_zero
    exact ⟨earningsLoop_length _ _ _ _ _ _ ▸ rfl, hF, hC, hH⟩

end LoanDash

namespace LoanDash

def wRow1 : Row :=
  { monthIndex := 1, loanDate := 0, payment := 100, principalPaid := 90,
    interest := 10, balance := 910, prepayment := 0, accruedInterest := 0,
    isDeferred := false, deferralIndex := none, deferralRemaining := none,
    isOwned := true, defaulted := false, recovery := 0, isTerminal := false,
    contractualMonth := 1 }

def wRow2 : Row :=
  { monthIndex := 2, loanDate := 1, payment := 0, principalPaid := 0,
    interest := 0, balance := 9191/10, prepayment := 0, accruedInterest := 91/10,
    isDeferred := true, deferralIndex := some 0, deferralRemaining := some 3,
    isOwned := true, defaulted := false, recovery := 0, isTerminal := false,
    contractualMonth := 2 }

/-- Witness for C7 on a concrete two-row schedule whose second row is
deferred. -/
theorem C7_witness :
    ∃ es, buildEarningsSchedule [wRow1, wRow2] (some ⟨0, 1⟩) (some ⟨0, 1⟩) = .ok es ∧
      es.length = 2 ∧ List.Forall₂ C7Rel [wRow1, wRow2] es ∧
      List.Chain' C7Adj es := by
  have heq : buildEarningsSchedule [wRow1, wRow2] (some ⟨0, 1⟩) (some ⟨0, 1⟩) =
      .ok (sortByLoanDate (earningsLoop 0 0 [wRow1, wRow2] 0 0 0)) := by
    with_unfolding_all rfl
  have h := C7_deferred_rows_zero_earnings [wRow1, wRow2] ⟨0, 1⟩ ⟨0, 1⟩ _
    (by decide) heq
  exact ⟨_, heq, by simpa using h.1, h.2.1, h.2.2.1⟩

end LoanDash

/-! ## Claims C8 and C9: ownership normalization and date errors -/

namespace LoanDash

/-- Sum of the percent fields of an allocation list. -/
def sumPercents (l : List Allocation) : ℚ := (l.map Allocation.percent).sum

theorem foldl_add_percent :
    ∀ (l : List Allocation) (s : ℚ), l.foldl (fun s a => s + a.percent) s = s + sumPercents l := by
  intro l
  induction l with
  | nil => intro s; simp [sumPercents]
  | cons a t ih =>
    intro s
    rw [List.foldl_cons, ih]
    simp [sumPercents]
    ring

/-- C8 counterexample: when the real holders' percents already exceed 100
(a single holder at 150), the Market remainder is clamped at 0 and the
normalized percents sum to 150, not 100. -/
theorem C8_counterexample :
    sumPercents (normalizeOwnership (some { allocations := [{ user := "A", percent := 150 }] })
      none none).allocations = 150 ∧
    ¬ (sumPercents (normalizeOwnership (some { allocations := [{ user := "A", percent := 150 }] })
      none none).allocations = 100) := by
  constructor <;> with_unfolding_all decide

theorem sum_with_market (l : List Allocation) :
    sumPercents (l ++ [⟨MARKET_USER, max 0 (100 - sumPercents l)⟩]) =
      max 100 (sumPercents l) := by
  have h1 : sumPercents (l ++ [⟨MARKET_USER, max 0 (100 - sumPercents l)⟩]) =
      sumPercents l + max 0 (100 - sumPercents l) := by
    simp [sumPercents]
  rw [h1]
  by_cases h : sumPercents l ≤ 100
  · rw [max_eq_right (by linarith : (0:ℚ) ≤ 100 - sumPercents l),
      max_eq_left h]
    ring
  · push_neg at h
    rw [max_eq_left (by linarith : 100 - sumPercents l ≤ (0:ℚ)),
      max_eq_right (le_of_lt h)]
    ring

/-- C8 (amended): after `normalizeOwnership` the allocation list is the
real holders (none named Market) followed by exactly one Market allocation
holding `max 0 (100 - assigned)`; the percents sum to
`max 100 assigned`, hence to exactly 100 whenever the real holders'
percents sum to at most 100. -/
theorem C8_market_remainder_amended :
    ∀ (ow : Option Ownership) (user : Option String) (pct : Option ℚ),
      ∃ (real : List Allocation) (marketAlloc : Allocation),
        (normalizeOwnership ow user pct).allocations = real ++ [marketAlloc] ∧
        marketAlloc.user = MARKET_USER ∧
        (∀ a ∈ real, a.user ≠ MARKET_USER) ∧
        marketAlloc.percent = max 0 (100 - sumPercents real) ∧
        sumPercents (normalizeOwnership ow user pct).allocations = max 100 (sumPercents real) ∧
        (sumPercents real ≤ 100 →
          sumPercents (normalizeOwnership ow user pct).allocations = 100) := by
  intro ow user pct
  unfold normalizeOwnership
  simp only [foldl_add_percent, zero_add]
  set ow1 : Ownership := match user with
    | none => ow.getD { allocations := [] }
    | some u =>
        if (ow.getD { allocations := [] }).allocations.any (fun a => a.user = u)
        then ow.getD { allocations := [] }
        else { allocations := (ow.getD { allocations := [] }).allocations ++
          [{ user := u, percent := pct.getD 100 }] } with how1
  refine ⟨ow1.allocations.filter (fun a => a.user ≠ MARKET_USER),
    ⟨MARKET_USER, max 0 (100 - sumPercents (ow1.allocations.filter (fun a => a.user ≠ MARKET_USER)))⟩,
    rfl, rfl, ?_, rfl, ?_, ?_⟩
  · intro a ha
    have := List.of_mem_filter ha
    simpa using this
  · exact sum_with_market _
  · intro hle
    rw [sum_with_market _]
    exact max_eq_left hle

end LoanDash

namespace LoanDash

/-- Witness for C8 at a concrete 40%-assigned loan. -/
theorem C8_witness :
    ∃ (real : List Allocation) (marketAlloc : Allocation),
      (normalizeOwnership (some { allocations := [{ user := "Ann", percent := 40 }] })
        none none).allocations = real ++ [marketAlloc] ∧
      marketAlloc.user = MARKET_USER ∧
      (∀ a ∈ real, a.user ≠ MARKET_USER) ∧
      marketAlloc.percent = max 0 (100 - sumPercents real) ∧
      sumPercents (normalizeOwnership (some { allocations := [{ user := "Ann", percent := 40 }] })
        none none).allocations = max 100 (sumPercents real) ∧
      (sumPercents real ≤ 100 →
        sumPercents (normalizeOwnership (some { allocations := [{ user := "Ann", percent := 40 }] })
          none none).allocations = 100) :=
  C8_market_remainder_amended
    (some { allocations := [{ user := "Ann", percent := 40 }] }) none none

def badPurchaseLoan : Loan :=
  { principal := 10000, purchasePrice := 10000, nominalRate := 12/100,
    termYears := 1, graceYears := 0,
    loanStartDate := some ⟨0, 1⟩, purchaseDate := none,
    ownershipPct := 1, events := [] }

/-- C9 counterexample: a loan with a valid loanStartDate but an
unparseable purchaseDate does NOT throw in `buildAmortSchedule`: it
returns a full 12-row schedule whose rows are all unowned (comparisons
against the invalid date are false). -/
theorem C9_counterexample :
    buildAmortSchedule badPurchaseLoan = .ok (buildAmortScheduleCore badPurchaseLoan 0) ∧
    (¬ ∃ msg, buildAmortSchedule badPurchaseLoan = .error msg) ∧
    (buildAmortScheduleCore badPurchaseLoan 0).length = 12 ∧
    ∀ r ∈ buildAmortScheduleCore badPurchaseLoan 0, r.isOwned = false := by
  refine ⟨rfl, ?_, by with_unfolding_all decide, by with_unfolding_all decide⟩
  rintro ⟨msg, hmsg⟩
  rw [show buildAmortSchedule badPurchaseLoan =
    .ok (buildAmortScheduleCore badPurchaseLoan 0) from rfl] at hmsg
  cases hmsg

/-- C9 (amended): `buildAmortSchedule` throws exactly when `loanStartDate`
is unparseable (an unparseable purchaseDate is not checked);
`buildEarningsSchedule` throws on an unparseable loanStartDate or
purchaseDate provided the amortization schedule is non-empty, and returns
an empty result without checking dates when it is empty. -/
theorem C9_invalid_dates_amended :
    (∀ loan : Loan, loan.loanStartDate = none →
      ∃ msg, buildAmortSchedule loan = .error msg) ∧
    (∀ (loan : Loan) (s : PDate), loan.loanStartDate = some s →
      buildAmortSchedule loan = .ok (buildAmortScheduleCore loan s.month)) ∧
    (∀ (rows : List Row) (lsd pdd : Option PDate), rows ≠ [] →
      (lsd = none ∨ pdd = none) →
      ∃ msg, buildEarningsSchedule rows lsd pdd = .error msg) ∧
    (∀ lsd pdd : Option PDate, buildEarningsSchedule [] lsd pdd = .ok []) := by
  refine ⟨?_, ?_, ?_, ?_⟩
  · intro loan h
    refine ⟨"Invalid loanStartDate", ?_⟩
    rw [buildAmortSchedule, h]
  · intro loan s h
    rw [buildAmortSchedule, h]
  · intro rows lsd pdd hne hcase
    have hempty : rows.isEmpty = false := by
      cases rows
      · exact absurd rfl hne
      · rfl
    rcases hcase with h | h
    · subst h
      refine ⟨"Invalid loanStartDate in earnings engine", ?_⟩
      unfold buildEarningsSchedule
      simp [hempty]
    · subst h
      cases lsd with
      | none =>
        refine ⟨"Invalid loanStartDate in earnings engine", ?_⟩
        unfold buildEarningsSchedule
        simp [hempty]
      | some ls =>
        refine ⟨"Invalid purchaseDate in earnings engine", ?_⟩
        unfold buildEarningsSchedule
        simp [hempty]
  · intro lsd pdd
    unfold buildEarningsSchedule
    simp

/-- Witness for C9 at concrete loans and schedules. -/
theorem C9_witness :
    (∃ msg, buildAmortSchedule
      { principal := 10000, purchasePrice := 10000, nominalRate := 12/100,
        termYears := 1, graceYears := 0, loanStartDate := none,
        purchaseDate := some ⟨0, 1⟩, ownershipPct := 1,
        events := [] } = .error msg) ∧
    (buildAmortSchedule scenarioLoan = .ok (buildAmortScheduleCore scenarioLoan 0)) ∧
    (∃ msg, buildEarningsSchedule [wRow1] (some ⟨0, 1⟩) none = .error msg) ∧
    buildEarningsSchedule [] none none = .ok [] := by
  refine ⟨?_, ?_, ?_, ?_⟩
  · exact C9_invalid_dates_amended.1 _ rfl
  · exact C9_invalid_dates_amended.2.1 scenarioLoan ⟨0, 1⟩ rfl
  · exact C9_invalid_dates_amended.2.2.1 [wRow1] (some ⟨0, 1⟩) none
      (by simp) (Or.inr rfl)
  · exact C9_invalid_dates_amended.2.2.2 none none

end LoanDash

/-! ## Claims C5, C6 and C10: ROI engine and KPIs -/

namespace LoanDash

/-- C10: when the loans' purchase prices sum to 0 (the empty array
included), `computeWeightedRoiAsOfMonth` returns 0 and `computeKPIs`
returns the all-zero KPI record; every division in either function is
guarded by the same non-zero total-invested test. -/
theorem C10_zero_invested_guard :
    (∀ (loans : List KLoan) (asOfMonth : ℤ),
      loans.foldl (fun s l => s + l.purchasePrice) 0 = 0 →
      computeWeightedRoiAsOfMonth loans asOfMonth = 0 ∧
      computeKPIs loans asOfMonth =
        { totalInvested := 0, weightedROI := 0, projectedWeightedROI := 0,
          capitalRecoveredAmount := 0, capitalRecoveryPct := 0 }) ∧
    (∀ asOfMonth : ℤ,
      computeWeightedRoiAsOfMonth [] asOfMonth = 0 ∧
      computeKPIs [] asOfMonth =
        { totalInvested := 0, weightedROI := 0, projectedWeightedROI := 0,
          capitalRecoveredAmount := 0, capitalRecoveryPct := 0 }) := by
  have hmain : ∀ (loans : List KLoan) (asOfMonth : ℤ),
      loans.foldl (fun s l => s + l.purchasePrice) 0 = 0 →
      computeWeightedRoiAsOfMonth loans asOfMonth = 0 ∧
      computeKPIs loans asOfMonth =
        { totalInvested := 0, weightedROI := 0, projectedWeightedROI := 0,
          capitalRecoveredAmount := 0, capitalRecoveryPct := 0 } := by
    intro loans asOfMonth h
    constructor
    · unfold computeWeightedRoiAsOfMonth
      simp [h]
    · unfold computeKPIs
      simp [h]
  exact ⟨hmain, fun asOfMonth => hmain [] asOfMonth rfl⟩

/-- Witness for C10 at a two-loan portfolio with prices 5 and -5 and at
the empty portfolio. -/
theorem C10_witness :
    (computeWeightedRoiAsOfMonth
        [{ purchasePrice := 5, roiSeries := [], schedule := [] },
         { purchasePrice := -5, roiSeries := [], schedule := [] }] 7 = 0 ∧
      computeKPIs
        [{ purchasePrice := 5, roiSeries := [], schedule := [] },
         { purchasePrice := -5, roiSeries := [], schedule := [] }] 7 =
        { totalInvested := 0, weightedROI := 0, projectedWeightedROI := 0,
          capitalRecoveredAmount := 0, capitalRecoveryPct := 0 }) ∧
    (computeWeightedRoiAsOfMonth [] 7 = 0) := by
  constructor
  · exact C10_zero_invested_guard.1
      [{ purchasePrice := 5, roiSeries := [], schedule := [] },
       { purchasePrice := -5, roiSeries := [], schedule := [] }] 7
      (by with_unfolding_all decide)
  · exact (C10_zero_invested_guard.2 7).1

end LoanDash

namespace LoanDash

def cex5Loan : Loan :=
  { principal := 12, purchasePrice := 10, nominalRate := 0,
    termYears := 1, graceYears := 0,
    loanStartDate := some ⟨0, 1⟩, purchaseDate := some ⟨0, 1⟩,
    ownershipPct := 1/2, events := [] }

/-- C5 counterexample: at a loan with ownership fraction 1/2, the ROI
engine's first roiSeries entry carries `realized` equal to the full
(unscaled) cumulative net of the cum-schedule row, which differs from the
ownership-scaled value the claim asserts. -/
theorem C5_counterexample :
    ∃ (cums : List CRow) (es : List RoiEntry),
      deriveLoanCums cex5Loan = .ok cums ∧ deriveLoanRoi cex5Loan = .ok es ∧
      cums.head?.map (fun c => (c.cumPrincipal + c.cumInterest) - c.cumFees) =
        some 1 ∧
      es.head?.map RoiEntry.realized = some 1 ∧
      es.head?.map RoiEntry.isTerminal = some false ∧
      ¬ ((1 : ℚ) = 1 * cex5Loan.ownershipPct) := by
  refine ⟨_, _, rfl, rfl, ?_, ?_, ?_, ?_⟩ <;> with_unfolding_all decide

theorem forall₂_map_self {α β : Type} {R : α → β → Prop} (f : α → β)
    (h : ∀ a, R a (f a)) : ∀ l : List α, List.Forall₂ R l (l.map f) := by
  intro l
  induction l with
  | nil => exact List.Forall₂.nil
  | cons a t ih => exact List.Forall₂.cons (h a) ih

/-- C5 (amended): for each owned row the ROI engine computes `realized =
cumPrincipal + cumInterest - cumFees`, `unrealized = balance * 0.95` and
`loanValue = realized + unrealized` with *no* ownership scaling, and
`roi = (loanValue - purchasePrice) / purchasePrice` against the nominal
purchase price (unguarded in `deriveLoansWithRoi`); because the claimed
ownership scaling multiplies both the loan value and the invested basis by
the same fraction, the claimed roi coincides with the code's whenever the
fraction and the price are non-zero. -/
theorem C5_roi_unscaled_amended :
    (∀ (pp : ℚ) (cums : List CRow),
      List.Forall₂ (fun (c : CRow) (e : RoiEntry) =>
        e.realized = (c.cumPrincipal + c.cumInterest) - c.cumFees ∧
        e.unrealized = c.row.balance * (95 / 100) ∧
        e.loanValue = e.realized + e.unrealized ∧
        e.remainingBalance = c.row.balance ∧
        e.isTerminal = c.row.isTerminal ∧
        (pp ≠ 0 → e.roi = (e.loanValue - pp) / pp))
        (cums.filter (fun c => c.isOwned)) (roiSeriesOf pp cums)) ∧
    (∀ (l : Loan) (cums : List CRow), deriveLoanCums l = .ok cums →
      deriveLoanRoi l = .ok (roiSeriesOf l.purchasePrice cums)) ∧
    (∀ (pct L pp : ℚ), pct ≠ 0 → pp ≠ 0 →
      (pct * L - pct * pp) / (pct * pp) = (L - pp) / pp) := by
  refine ⟨?_, ?_, ?_⟩
  · intro pp cums
    unfold roiSeriesOf
    apply forall₂_map_self
    intro c
    exact ⟨rfl, rfl, rfl, rfl, rfl, fun _ => rfl⟩
  · intro l cums h
    unfold deriveLoanRoi
    rw [h]
    rfl
  · intro pct L pp hpct hpp
    field_simp
    ring

/-- Witness for C5 at concrete inputs: the pointwise facts, the
`deriveLoansWithRoi` composition at the concrete half-owned loan, and the
scaling cancellation at its first-row numbers. -/
theorem C5_witness :
    (List.Forall₂ (fun (c : CRow) (e : RoiEntry) =>
        e.realized = (c.cumPrincipal + c.cumInterest) - c.cumFees ∧
        e.unrealized = c.row.balance * (95 / 100) ∧
        e.loanValue = e.realized + e.unrealized ∧
        e.remainingBalance = c.row.balance ∧
        e.isTerminal = c.row.isTerminal ∧
        ((1000 : ℚ) ≠ 0 → e.roi = (e.loanValue - 1000) / 1000))
        (([] : List CRow).filter (fun c => c.isOwned)) (roiSeriesOf 1000 [])) ∧
    deriveLoanRoi cex5Loan = .ok (roiSeriesOf cex5Loan.purchasePrice
      (cumScheduleOf cex5Loan.purchaseDate
        (takeUntilTerminal (buildAmortScheduleCore cex5Loan 0)) 0 0 0)) ∧
    ((1/2 : ℚ) * (95533/100) - (1/2) * 1000) / ((1/2) * 1000) =
      ((95533/100 : ℚ) - 1000) / 1000 := by
  refine ⟨?_, ?_, ?_⟩
  · exact C5_roi_unscaled_amended.1 1000 []
  · exact C5_roi_unscaled_amended.2.1 cex5Loan _ rfl
  · exact C5_roi_unscaled_amended.2.2 (1/2) (95533/100) 1000
      (by norm_num) (by norm_num)

end LoanDash

namespace LoanDash

theorem fillData_cons (purchase : PDate) (lookup : ℤ → Option ℚ) (lk : ℚ) (d : ℤ)
    (ds : List ℤ) :
    fillData purchase lookup lk (d :: ds) =
      (if PDate.lt ⟨d, 1⟩ purchase then none :: fillData purchase lookup lk ds
       else
         match lookup d with
         | some v => some v :: fillData purchase lookup v ds
         | none => some lk :: fillData purchase lookup lk ds) := rfl

theorem fillData_null_iff (purchase : PDate) (lookup : ℤ → Option ℚ) :
    ∀ (dates : List ℤ) (lk : ℚ) (j : ℕ) (m : ℤ), dates.get? j = some m →
      ((fillData purchase lookup lk dates).get? j = some none ↔
        PDate.lt ⟨m, 1⟩ purchase = true) := by
  intro dates
  induction dates with
  | nil => intro lk j m h; simp at h
  | cons d ds ih =>
    intro lk j m h
    rw [fillData_cons]
    cases j with
    | zero =>
      have hdm : d = m := by simpa using h
      subst hdm
      by_cases hlt : PDate.lt ⟨d, 1⟩ purchase = true
      · simp [hlt]
      · rw [if_neg hlt]
        cases hlook : lookup d <;> simp [hlt, hlook]
    | succ n =>
      simp only [List.get?_cons_succ] at h
      by_cases hlt : PDate.lt ⟨d, 1⟩ purchase = true
      · rw [if_pos hlt]
        simpa using ih lk n m h
      · rw [if_neg hlt]
        cases hlook : lookup d
        · simpa using ih lk n m h
        · simpa using ih _ n m h

theorem fillData_obs (purchase : PDate) (lookup : ℤ → Option ℚ) :
    ∀ (dates : List ℤ) (lk : ℚ) (j : ℕ) (m : ℤ) (v : ℚ), dates.get? j = some m →
      PDate.lt ⟨m, 1⟩ purchase = false → lookup m = some v →
      (fillData purchase lookup lk dates).get? j = some (some v) := by
  intro dates
  induction dates with
  | nil => intro lk j m v h; simp at h
  | cons d ds ih =>
    intro lk j m v h hlt hlook
    rw [fillData_cons]
    cases j with
    | zero =>
      have hdm : d = m := by simpa using h
      subst hdm
      rw [if_neg (by simp [hlt]), hlook]
      rfl
    | succ n =>
      simp only [List.get?_cons_succ] at h
      by_cases hlt2 : PDate.lt ⟨d, 1⟩ purchase = true
      · rw [if_pos hlt2]
        simpa using ih lk n m v h hlt hlook
      · rw [if_neg hlt2]
        cases hlook2 : lookup d
        · simpa using ih lk n m v h hlt hlook
        · simpa using ih _ n m v h hlt hlook

theorem fillData_carry (purchase : PDate) (lookup : ℤ → Option ℚ) :
    ∀ (dates : List ℤ) (lk : ℚ) (j : ℕ) (y : ℚ) (m2 : ℤ),
      (fillData purchase lookup lk dates).get? j = some (some y) →
      dates.get? (j + 1) = some m2 →
      PDate.lt ⟨m2, 1⟩ purchase = false → lookup m2 = none →
      (fillData purchase lookup lk dates).get? (j + 1) = some (some y) := by
  intro dates
  induction dates with
  | nil => intro lk j y m2 h; simp [fillData] at h
  | cons d ds ih =>
    intro lk j y m2 hj hj1 hlt hlook
    rw [fillData_cons] at hj ⊢
    cases j with
    | zero =>
      simp only [List.get?_cons_succ] at hj1
      by_cases hlt0 : PDate.lt ⟨d, 1⟩ purchase = true
      · rw [if_pos hlt0] at hj
        simp at hj
      · rw [if_neg hlt0] at hj ⊢
        cases hlook0 : lookup d with
        | none =>
          (try rw [hlook0] at hj)
          (try dsimp only at hj)
          (try dsimp only)
          have hy : lk = y := by simpa using hj
          subst hy
          simp only [List.get?_cons_succ]
          rcases ds with _ | ⟨d2, ds2⟩
          · simp at hj1
          · have hdm : d2 = m2 := by simpa using hj1
            subst hdm
            rw [fillData_cons, if_neg (by simp [hlt]), hlook]
            rfl
        | some v =>
          (try rw [hlook0] at hj)
          (try dsimp only at hj)
          (try dsimp only)
          have hy : v = y := by simpa using hj
          subst hy
          simp only [List.get?_cons_succ]
          rcases ds with _ | ⟨d2, ds2⟩
          · simp at hj1
          · have hdm : d2 = m2 := by simpa using hj1
            subst hdm
            rw [fillData_cons, if_neg (by simp [hlt]), hlook]
            rfl
    | succ n =>
      simp only [List.get?_cons_succ] at hj1
      by_cases hlt0 : PDate.lt ⟨d, 1⟩ purchase = true
      · rw [if_pos hlt0] at hj ⊢
        simp only [List.get?_cons_succ] at hj ⊢
        exact ih lk n y m2 hj hj1 hlt hlook
      · rw [if_neg hlt0] at hj ⊢
        cases hlook0 : lookup d with
        | none =>
          (try rw [hlook0] at hj)
          (try dsimp only at hj)
          (try dsimp only)
          simp only [List.get?_cons_succ] at hj ⊢
          exact ih lk n y m2 hj hj1 hlt hlook
        | some v =>
          (try rw [hlook0] at hj)
          (try dsimp only at hj)
          (try dsimp only)
          simp only [List.get?_cons_succ] at hj ⊢
          exact ih _ n y m2 hj hj1 hlt hlook

end LoanDash

namespace LoanDash

theorem weightedSumAt_eq_sum :
    ∀ (pairs : List (RLoan × List (Option ℚ))) (j : ℕ),
      weightedSumAt pairs j = (pairs.map fun lp =>
        match lp.2.get? j with
        | some (some y) => y * lp.1.purchasePrice
        | _ => 0).sum := by
  have aux : ∀ (j : ℕ) (pairs : List (RLoan × List (Option ℚ))) (s : ℚ),
      pairs.foldl (fun s lp =>
        match lp.2.get? j with
        | some (some y) => s + y * lp.1.purchasePrice
        | _ => s) s =
      s + (pairs.map fun lp =>
        match lp.2.get? j with
        | some (some y) => y * lp.1.purchasePrice
        | _ => 0).sum := by
    intro j pairs
    induction pairs with
    | nil => intro s; simp
    | cons p ps ih =>
      intro s
      rw [List.foldl_cons, List.map_cons, List.sum_cons]
      rcases hp : p.2.get? j with _ | (_ | y) <;>
        simp only [hp] <;> rw [ih] <;> ring
  intro pairs j
  unfold weightedSumAt
  rw [aux j pairs 0, zero_add]

theorem weightedSeriesOf_get (loans : List RLoan) (perLoan : List (List (Option ℚ)))
    (numDates j : ℕ) (hj : j < numDates) :
    (weightedSeriesOf loans perLoan numDates).get? j =
      some (if loans.foldl (fun s l => s + l.purchasePrice) 0 = 0 then 0
        else weightedSumAt (loans.zip perLoan) j /
          loans.foldl (fun s l => s + l.purchasePrice) 0) := by
  unfold weightedSeriesOf
  rw [List.get?_eq_getElem?, List.getElem?_map, List.getElem?_range hj]
  rfl

end LoanDash

namespace LoanDash

theorem timeline_structure_facts :
    (∀ (loans : List RLoan) (i : ℕ) (l : RLoan),
      loans.get? i = some l →
      (buildProjectedRoiTimeline loans).perLoanSeries.get? i =
        some (perLoanDataOf l (buildProjectedRoiTimeline loans).dates)) ∧
    (∀ (loans : List RLoan) (j : ℕ),
      j < (buildProjectedRoiTimeline loans).dates.length →
      (buildProjectedRoiTimeline loans).weightedSeries.get? j =
        some (if loans.foldl (fun s l => s + l.purchasePrice) 0 = 0 then 0
          else ((loans.zip (buildProjectedRoiTimeline loans).perLoanSeries).map fun lp =>
            match lp.2.get? j with
            | some (some y) => y * lp.1.purchasePrice
            | _ => 0).sum / loans.foldl (fun s l => s + l.purchasePrice) 0)) := by
  constructor
  · intro loans i l h
    cases loans with
    | nil => simp at h
    | cons l0 rest =>
      show ((l0 :: rest).map fun l2 =>
          perLoanDataOf l2 (buildProjectedRoiTimeline (l0 :: rest)).dates).get? i = _
      rw [List.get?_eq_getElem?, List.getElem?_map, ← List.get?_eq_getElem?, h]
      rfl
  · intro loans j hj
    cases loans with
    | nil => simp [buildProjectedRoiTimeline] at hj
    | cons l0 rest =>
      have heq : (buildProjectedRoiTimeline (l0 :: rest)).weightedSeries =
          weightedSeriesOf (l0 :: rest)
            (buildProjectedRoiTimeline (l0 :: rest)).perLoanSeries
            (buildProjectedRoiTimeline (l0 :: rest)).dates.length := rfl
      rw [heq, weightedSeriesOf_get _ _ _ j hj, weightedSumAt_eq_sum]

end LoanDash

namespace LoanDash

def cl6A : RLoan :=
  { purchaseDate := ⟨0, 1⟩, purchasePrice := 100, termYears := 0, graceYears := 0,
    ownershipPct := 1,
    cumSchedule := [⟨true, 0, 10, 0, 0, 100⟩] }

def cl6B : RLoan :=
  { purchaseDate := ⟨0, 1⟩, purchasePrice := 100, termYears := 0, graceYears := 0,
    ownershipPct := 1/2,
    cumSchedule := [⟨true, 0, 20, 0, 0, 100⟩] }

/-- The weighting the claim asserts: an invested-capital-weighted average
over the loans that have a value in month `j`, with invested capital the
ownership fraction times the purchase price. -/
def claimedInvestedWeightedAt (loans : List RLoan)
    (perLoan : List (List (Option ℚ))) (j : ℕ) : ℚ :=
  let parts := (loans.zip perLoan).filterMap fun lp =>
    match lp.2.get? j with
    | some (some y) => some (y, lp.1.ownershipPct * lp.1.purchasePrice)
    | _ => none
  let wtot := (parts.map fun p => p.2).sum
  if wtot = 0 then 0 else (parts.map fun p => p.1 * p.2).sum / wtot

/-- C6 counterexample: for two loans with equal purchase price 100 but
ownership fractions 1 and 1/2 and single-month ROIs 0.05 and 0.15, the
timeline's weighted value is (0.05*100 + 0.15*100)/200 = 1/10 - weighted
by nominal purchase price - whereas the invested-capital weighting the
claim asserts gives (0.05*100 + 0.15*50)/150 = 1/12. -/
theorem C6_counterexample :
    (buildProjectedRoiTimeline [cl6A, cl6B]).dates = [0] ∧
    (buildProjectedRoiTimeline [cl6A, cl6B]).weightedSeries = [1/10] ∧
    claimedInvestedWeightedAt [cl6A, cl6B]
      (buildProjectedRoiTimeline [cl6A, cl6B]).perLoanSeries 0 = 1/12 ∧
    ¬ ((1 : ℚ)/10 = 1/12) := by
  refine ⟨?_, ?_, ?_, ?_⟩ <;> with_unfolding_all decide

end LoanDash

namespace LoanDash

/-- C6 (amended): each loan's aligned series is the fill of its ROI
observations over the shared grid; a month is `null` exactly when its
first day precedes the loan's purchase date (so a mid-month purchase nulls
the purchase month itself); a month at or past the purchase date takes the
month's own observation when one exists and otherwise carries the previous
non-null value forward; and each month's weighted value is the sum over
loans-with-value of roi times *nominal purchase price*, divided by the
total purchase price of all loans (0 when that total is 0). -/
theorem C6_price_weighted_amended :
    (∀ (loans : List RLoan) (i : ℕ) (l : RLoan),
      loans.get? i = some l →
      (buildProjectedRoiTimeline loans).perLoanSeries.get? i =
        some (perLoanDataOf l (buildProjectedRoiTimeline loans).dates)) ∧
    (∀ (purchase : PDate) (lookup : ℤ → Option ℚ) (dates : List ℤ) (lk : ℚ)
        (j : ℕ) (m : ℤ), dates.get? j = some m →
      ((fillData purchase lookup lk dates).get? j = some none ↔
        PDate.lt ⟨m, 1⟩ purchase = true)) ∧
    (∀ (purchase : PDate) (lookup : ℤ → Option ℚ) (dates : List ℤ) (lk : ℚ)
        (j : ℕ) (m : ℤ) (v : ℚ), dates.get? j = some m →
      PDate.lt ⟨m, 1⟩ purchase = false → lookup m = some v →
      (fillData purchase lookup lk dates).get? j = some (some v)) ∧
    (∀ (purchase : PDate) (lookup : ℤ → Option ℚ) (dates : List ℤ) (lk : ℚ)
        (j : ℕ) (y : ℚ) (m2 : ℤ),
      (fillData purchase lookup lk dates).get? j = some (some y) →
      dates.get? (j + 1) = some m2 →
      PDate.lt ⟨m2, 1⟩ purchase = false → lookup m2 = none →
      (fillData purchase lookup lk dates).get? (j + 1) = some (some y)) ∧
    (∀ (loans : List RLoan) (j : ℕ),
      j < (buildProjectedRoiTimeline loans).dates.length →
      (buildProjectedRoiTimeline loans).weightedSeries.get? j =
        some (if loans.foldl (fun s l => s + l.purchasePrice) 0 = 0 then 0
          else ((loans.zip (buildProjectedRoiTimeline loans).perLoanSeries).map fun lp =>
            match lp.2.get? j with
            | some (some y) => y * lp.1.purchasePrice
            | _ => 0).sum / loans.foldl (fun s l => s + l.purchasePrice) 0)) :=
  ⟨timeline_structure_facts.1,
   fun purchase lookup dates lk j m h => fillData_null_iff purchase lookup dates lk j m h,
   fun purchase lookup dates lk j m v h h2 h3 =>
     fillData_obs purchase lookup dates lk j m v h h2 h3,
   fun purchase lookup dates lk j y m2 h h2 h3 h4 =>
     fillData_carry purchase lookup dates lk j y m2 h h2 h3 h4,
   timeline_structure_facts.2⟩

/-- Witness for C6 at the concrete two-loan portfolio and small concrete
fills. -/
theorem C6_witness :
    ((buildProjectedRoiTimeline [cl6A, cl6B]).perLoanSeries.get? 0 =
      some (perLoanDataOf cl6A (buildProjectedRoiTimeline [cl6A, cl6B]).dates)) ∧
    ((fillData ⟨5, 15⟩ (fun _ => none) 7 [5]).get? 0 = some none ↔
      PDate.lt ⟨5, 1⟩ ⟨5, 15⟩ = true) ∧
    ((fillData ⟨5, 1⟩ (fun m => if m = 5 then some 3 else none) 7 [5]).get? 0 =
      some (some 3)) ∧
    ((fillData ⟨5, 1⟩ (fun m => if m = 5 then some 3 else none) 7 [5, 6]).get? 1 =
      some (some 3)) ∧
    ((buildProjectedRoiTimeline [cl6A, cl6B]).weightedSeries.get? 0 =
      some (if ([cl6A, cl6B].foldl (fun s l => s + l.purchasePrice) 0) = 0 then 0
        else (([cl6A, cl6B].zip
            (buildProjectedRoiTimeline [cl6A, cl6B]).perLoanSeries).map fun lp =>
          match lp.2.get? 0 with
          | some (some y) => y * lp.1.purchasePrice
          | _ => 0).sum / [cl6A, cl6B].foldl (fun s l => s + l.purchasePrice) 0)) := by
  refine ⟨?_, ?_, ?_, ?_, ?_⟩
  · exact C6_price_weighted_amended.1 [cl6A, cl6B] 0 cl6A rfl
  · exact C6_price_weighted_amended.2.1 ⟨5, 15⟩ (fun _ => none) [5] 7 0 5 rfl
  · exact C6_price_weighted_amended.2.2.1 ⟨5, 1⟩ (fun m => if m = 5 then some 3 else none)
      [5] 7 0 5 3 rfl (by with_unfolding_all decide) (by with_unfolding_all decide)
  · apply C6_price_weighted_amended.2.2.2.1 ⟨5, 1⟩
      (fun m => if m = 5 then some 3 else none) [5, 6] 7 0 3 6
    · exact C6_price_weighted_amended.2.2.1 ⟨5, 1⟩
        (fun m => if m = 5 then some 3 else none) [5, 6] 7 0 5 3 rfl
        (by with_unfolding_all decide) (by with_unfolding_all decide)
    · rfl
    · with_unfolding_all decide
    · with_unfolding_all decide
  · exact C6_price_weighted_amended.2.2.2.2 [cl6A, cl6B] 0 (by with_unfolding_all decide)

end LoanDash
